import Mathlib

/-!
# MEGAcmd file-socket communications manager

A shallow embedding of `src/comunicationsmanagerfilesockets.cpp`
(`ComunicationsManagerFileSockets`) and theorems about it.

The operating system is modelled by a `World`: for every system call the code
makes there is a queue of results that the successive calls of that kind
return, and a trace that records every call in program order.  Every function
of the class becomes a function that takes a world and returns the new world
together with its result.  The local variable that `getPetition`
declares without an initialiser takes its value from a queue of the world as
well.
-/

set_option autoImplicit false

namespace MegaCmd

/-! ## Bytes, machine integers, errno values -/

/-- One `char` of a `std::string` or of a socket buffer. -/
abbrev Byte := Fin 256

/-- The value of a C `int` (32 bits, two's complement) holding the integer `z`. -/
def toInt32 (z : Int) : Int := (z + 2 ^ 31) % 2 ^ 32 - 2 ^ 31

/-- Broken pipe. -/
def EPIPE : Nat := 32
/-- Too many open files. -/
def EMFILE : Nat := 24
/-- Address already in use. -/
def EADDRINUSE : Nat := 98
/-- Bad file descriptor. -/
def EBADF : Nat := 9
/-- Interrupted system call. -/
def EINTR : Nat := 4

/-- The bytes of the C string that starts at the beginning of `buf`: everything
before the first NUL byte.  This is what `std::string::append(const char*)` and
`strdup` copy. -/
def cstr (buf : List Byte) : List Byte := buf.takeWhile (fun b => b ≠ 0)

/-- The literal `"ERROR"`. -/
def ERROR : List Byte := [69, 82, 82, 79, 82]

/-- The literal `"ack"`. -/
def ack : List Byte := [97, 99, 107]

/-- The literal `"FAILED"`. -/
def FAILED : List Byte := [70, 65, 73, 76, 69, 68]

/-! ## The operating system -/

/-- Result of a system call that returns a non-negative value on success and
`-1` with `errno` set on failure. -/
inductive SysRes where
  | ok (v : Nat)
  | fail (errno : Nat)
  deriving DecidableEq, Repr

/-- Result of `read` or `recv`: the bytes delivered, or a failure. -/
inductive RecvRes where
  | data (bs : List Byte)
  | fail (errno : Nat)
  deriving DecidableEq, Repr

/-- What a `send` or `write` call is asked to transmit. -/
inductive Payload where
  /-- An `int` passed by address with `sizeof(int)`, four bytes. -/
  | int32 (v : Int)
  /-- A `size_t` passed by address with `sizeof(size_t)`. -/
  | sizeT (v : Nat)
  /-- The character data of a string, with the requested length. -/
  | bytes (data : List Byte) (len : Nat)
  deriving DecidableEq, Repr

/-- One call observed by the operating system (or one effect on the heap). -/
inductive Event where
  | accept (sock : Int) (res : Int)
  | fcntl (fd : Int)
  | send (fd : Int) (p : Payload) (res : Int)
  | recv (fd : Int) (cap : Nat) (res : Int)
  | read (fd : Int) (cap : Nat) (res : Int)
  | ioctl (fd : Int) (res : Int)
  | write (fd : Int) (p : Payload) (res : Int)
  | close (fd : Int)
  | socket (res : Int)
  | unlink (sockId : Int)
  | bind (fd : Int) (sockId : Int) (res : Int)
  | listen (fd : Int) (backlog : Nat)
  | sleepMilliSeconds (ms : Nat)
  | sleep (seconds : Nat)
  | informStateListeners (s : List Byte)
  | deletePetition (outSocket : Int)
  | select (fd : Int) (seconds : Nat) (res : Int)
  | fcntlGetfl (fd : Int)
  | fcntlSetfl (fd : Int)
  deriving DecidableEq, Repr

/-- The state the code runs in: the members of the communications manager,
`errno`, the results the next system calls will return, and the trace of the
calls made so far. -/
structure World where
  /-- Member `count`, the last endpoint identifier handed out. -/
  count : Int := 0
  /-- Member `sockfd`, the primary endpoint. -/
  sockfd : Int := 3
  /-- Member `buffer`, the chunk buffer of `getPetition`. -/
  buffer : List Byte := List.replicate 1024 0
  errno : Nat := 0
  acceptQ : List SysRes := []
  socketQ : List SysRes := []
  bindQ : List SysRes := []
  sendQ : List SysRes := []
  writeQ : List SysRes := []
  ioctlQ : List SysRes := []
  readQ : List RecvRes := []
  recvQ : List RecvRes := []
  selectQ : List SysRes := []
  /-- The values that local variables declared without an initialiser hold
  when they come into scope, in the order of the declarations. -/
  stackQ : List Nat := []
  /-- The static map `connectedsockets` of `informStateListener`: private
  endpoint and the connection accepted on it, keys in insertion order. -/
  connectedsockets : List (Int × Int) := []
  trace : List Event := []
  deriving DecidableEq, Repr

/-- The `int` a system call returns. -/
def SysRes.val : SysRes → Int
  | .ok v => (v : Int)
  | .fail _ => -1

/-- A failing call stores its error in `errno`; a successful one leaves it. -/
def SysRes.errnoAfter (r : SysRes) (old : Nat) : Nat :=
  match r with
  | .ok _ => old
  | .fail e => e

/-- The next result of a queue and the rest of the queue; a queue that has run
out keeps answering `dflt`. -/
def nextRes {α : Type} (dflt : α) : List α → α × List α
  | [] => (dflt, [])
  | r :: rest => (r, rest)

/-- System call `accept(sock, ...)`. -/
def sys_accept (sock : Int) (w : World) : Int × World :=
  let (r, rest) := nextRes (SysRes.fail EINTR) w.acceptQ
  (r.val, { w with acceptQ := rest, errno := r.errnoAfter w.errno,
                   trace := w.trace ++ [Event.accept sock r.val] })

/-- System call `fcntl(fd, F_SETFD, FD_CLOEXEC)`: fails with `EBADF` on a
descriptor that is not open (in particular on `-1`). -/
def sys_fcntl (fd : Int) (w : World) : World :=
  { w with errno := if fd < 0 then EBADF else w.errno,
           trace := w.trace ++ [Event.fcntl fd] }

/-- System call `send(fd, p, MSG_NOSIGNAL)`. -/
def sys_send (fd : Int) (p : Payload) (w : World) : Int × World :=
  let (r, rest) := nextRes (SysRes.fail EINTR) w.sendQ
  (r.val, { w with sendQ := rest, errno := r.errnoAfter w.errno,
                   trace := w.trace ++ [Event.send fd p r.val] })

/-- System call `write(fd, p)`. -/
def sys_write (fd : Int) (p : Payload) (w : World) : Int × World :=
  let (r, rest) := nextRes (SysRes.fail EINTR) w.writeQ
  (r.val, { w with writeQ := rest, errno := r.errnoAfter w.errno,
                   trace := w.trace ++ [Event.write fd p r.val] })

/-- System call `close(fd)`. -/
def sys_close (fd : Int) (w : World) : World :=
  { w with trace := w.trace ++ [Event.close fd] }

/-- The declaration of a local variable without an initialiser: the value it
holds is whatever the stack holds at that place. -/
def World.uninitialised (w : World) : Nat × World :=
  ((nextRes 0 w.stackQ).1, { w with stackQ := (nextRes 0 w.stackQ).2 })

/-- The value of an 8-byte `unsigned long` that held `old` after a 4-byte `int`
with the value `v` has been stored at its address (LP64, little endian): the
low 32 bits are those of `v`, the high 32 bits are those of `old`. -/
def storeInt32 (old v : Nat) : Nat :=
  old % 2 ^ 64 / 2 ^ 32 * 2 ^ 32 + v % 2 ^ 32

/-- System call `ioctl(fd, FIONREAD, &total_available_bytes)` on the
`unsigned long int total_available_bytes` that holds `old`: the return value
(`0` or `-1`) and the value of the variable afterwards.  `FIONREAD` stores the
number of bytes available as an `int`; a failing call stores nothing. -/
def sys_ioctl (fd : Int) (old : Nat) (w : World) : Int × Nat × World :=
  let (r, rest) := nextRes (SysRes.fail EINTR) w.ioctlQ
  let ret : Int := match r with
    | .ok _ => 0
    | .fail _ => -1
  let total_available_bytes : Nat := match r with
    | .ok v => storeInt32 old v
    | .fail _ => old
  (ret, total_available_bytes, { w with ioctlQ := rest, errno := r.errnoAfter w.errno,
                                        trace := w.trace ++ [Event.ioctl fd ret] })

/-- Storing the bytes `chunk` at the start of a buffer. -/
def storeChunk (buf chunk : List Byte) : List Byte :=
  chunk ++ buf.drop chunk.length

/-- System call `read(fd, buffer, cap)` into the member `buffer`: at most `cap`
bytes are delivered; a queue that has run out reports end of file. -/
def sys_read (fd : Int) (cap : Nat) (w : World) : Int × World :=
  let (r, rest) := nextRes (RecvRes.data []) w.readQ
  match r with
  | .data bs =>
      let chunk := bs.take cap
      ((chunk.length : Int),
        { w with readQ := rest, buffer := storeChunk w.buffer chunk,
                 trace := w.trace ++ [Event.read fd cap (chunk.length : Int)] })
  | .fail e =>
      (-1, { w with readQ := rest, errno := e,
                    trace := w.trace ++ [Event.read fd cap (-1)] })

/-! ## Endpoint identifiers -/

/-- Method `get_next_comm_id`: `return ++count;` on the `int` member `count`,
a 32-bit integer whose increment wraps around.  The lock guard has no effect on
a sequential run. -/
def get_next_comm_id (w : World) : Int × World :=
  let c := toInt32 (w.count + 1)
  (c, { w with count := c })

/-- The identifiers returned by `n` successive calls of `get_next_comm_id`. -/
def comm_ids : Nat → World → List Int
  | 0, _ => []
  | n + 1, w => (get_next_comm_id w).1 :: comm_ids n (get_next_comm_id w).2

/-! ## Petitions -/

/-- Modelled from the spec: the classes `CmdPetition` and
`CmdPetitionPosixSockets` are declared in headers that are not part of the
sources.  A petition holds the request text, the private endpoint, the accepted
connection (`-1` until an accept has succeeded) and the disconnected flag.
`deleted` counts how often `delete` has been applied to the object; a live
petition has `deleted = 0`. -/
structure CmdPetitionPosixSockets where
  line : List Byte := []
  clientDisconnected : Bool := false
  outSocket : Int := -1
  acceptedOutSocket : Int := -1
  deleted : Nat := 0
  deriving DecidableEq, Repr

/-- Modelled from the spec: the destructor behind `delete inf` is declared in a
header that is not part of the sources; the petition "is destroyed and its
sockets closed", the accepted connection only when there is one. -/
def deletePetition (inf : CmdPetitionPosixSockets) (w : World) :
    CmdPetitionPosixSockets × World :=
  let w := { w with trace := w.trace ++ [Event.deletePetition inf.outSocket] }
  let w := sys_close inf.outSocket w
  let w := if inf.acceptedOutSocket ≠ -1 then sys_close inf.acceptedOutSocket w else w
  ({ inf with deleted := inf.deleted + 1 }, w)

/-- The status markers `MCMD_PARTIALOUT`, `MCMD_REQCONFIRM` and
`MCMD_REQSTRING`; their values are defined in a header that is not part of the
sources, so the functions that send them take them as a parameter. -/
structure Codes where
  MCMD_PARTIALOUT : Int
  MCMD_REQCONFIRM : Int
  MCMD_REQSTRING : Int
  deriving DecidableEq, Repr

/-- The length argument `max(1,(int)s.size())` of the sends that transmit a
whole string, as the `size_t` that `send` receives. -/
def sendLength (s : List Byte) : Nat := (max 1 (toInt32 (s.length : Int))).toNat

/-- Method `returnAndClosePetition(inf, s, outCode)`. -/
def returnAndClosePetition (inf : CmdPetitionPosixSockets) (s : List Byte) (outCode : Int)
    (w : World) : CmdPetitionPosixSockets × World :=
  let connectedsocket := inf.acceptedOutSocket
  let (connectedsocket, inf, w) :=
    if connectedsocket = -1 then
      let (connectedsocket, w) := sys_accept inf.outSocket w
      let w := sys_fcntl connectedsocket w
      (connectedsocket, { inf with acceptedOutSocket := connectedsocket }, w)
    else (connectedsocket, inf, w)
  if connectedsocket = -1 then
    deletePetition inf w
  else
    let sout := s
    let (_, w) := sys_send connectedsocket (Payload.int32 outCode) w
    let (_, w) := sys_send connectedsocket (Payload.bytes sout (sendLength sout)) w
    deletePetition inf w

/-- Method `sendPartialOutput(inf, s)`. -/
def sendPartialOutput (c : Codes) (inf : CmdPetitionPosixSockets) (s : List Byte)
    (w : World) : CmdPetitionPosixSockets × World :=
  if inf.clientDisconnected then (inf, w)
  else
    let connectedsocket := inf.acceptedOutSocket
    let (connectedsocket, inf, w) :=
      if connectedsocket = -1 then
        let (connectedsocket, w) := sys_accept inf.outSocket w
        let w := sys_fcntl connectedsocket w
        (connectedsocket, { inf with acceptedOutSocket := connectedsocket }, w)
      else (connectedsocket, inf, w)
    if connectedsocket = -1 then (inf, w)
    else if s.length ≠ 0 then
      let size := s.length
      let outCode := c.MCMD_PARTIALOUT
      let (n, w) := sys_send connectedsocket (Payload.int32 outCode) w
      if n < 0 then
        if w.errno = EPIPE then ({ inf with clientDisconnected := true }, w)
        else (inf, w)
      else
        let (n, w) := sys_send connectedsocket (Payload.sizeT size) w
        if n < 0 then (inf, w)
        else
          let (n, w) := sys_send connectedsocket (Payload.bytes s size) w
          if n < 0 then (inf, w)
          else (inf, w)
    else (inf, w)

/-- System call `recv(fd, &response, sizeof(response), MSG_NOSIGNAL)` into an
`int`: the return value, and the integer received when all four bytes arrived
(little endian); otherwise the variable keeps an indeterminate value. -/
def sys_recv_int (fd : Int) (w : World) : Int × Option Int × World :=
  let (r, rest) := nextRes (RecvRes.data []) w.recvQ
  match r with
  | .data bs =>
      let chunk := bs.take 4
      let v : Option Int := match chunk with
        | [b0, b1, b2, b3] =>
            some (toInt32 ((b0.val + 256 * b1.val + 65536 * b2.val + 16777216 * b3.val : Nat) : Int))
        | _ => none
      ((chunk.length : Int), v,
        { w with recvQ := rest, trace := w.trace ++ [Event.recv fd 4 (chunk.length : Int)] })
  | .fail e =>
      (-1, none, { w with recvQ := rest, errno := e,
                          trace := w.trace ++ [Event.recv fd 4 (-1)] })

/-- Method `getConfirmation(inf, message)`.  The result is `none` when the
`int response` is returned without having been received in full. -/
def getConfirmation (c : Codes) (inf : CmdPetitionPosixSockets) (message : List Byte)
    (w : World) : Option Int × CmdPetitionPosixSockets × World :=
  let connectedsocket := inf.acceptedOutSocket
  let (connectedsocket, w) :=
    if connectedsocket = -1 then
      let (connectedsocket, w) := sys_accept inf.outSocket w
      let w := sys_fcntl connectedsocket w
      (connectedsocket, w)
    else (connectedsocket, w)
  let inf := { inf with acceptedOutSocket := connectedsocket }
  if connectedsocket = -1 then
    let (inf, w) := deletePetition inf w
    (some 0, inf, w)
  else
    let outCode := c.MCMD_REQCONFIRM
    let (_, w) := sys_send connectedsocket (Payload.int32 outCode) w
    let (_, w) := sys_send connectedsocket (Payload.bytes message (sendLength message)) w
    let (_, response, w) := sys_recv_int connectedsocket w
    (response, inf, w)

/-- System call `recv(fd, buffer, cap, MSG_NOSIGNAL)` into a local buffer: the
return value, the buffer afterwards, and the new world. -/
def sys_recv (fd : Int) (cap : Nat) (buffer : List Byte) (w : World) :
    Int × List Byte × World :=
  let (r, rest) := nextRes (RecvRes.data []) w.recvQ
  match r with
  | .data bs =>
      let chunk := bs.take cap
      ((chunk.length : Int), storeChunk buffer chunk,
        { w with recvQ := rest, trace := w.trace ++ [Event.recv fd cap (chunk.length : Int)] })
  | .fail e =>
      (-1, buffer, { w with recvQ := rest, errno := e,
                            trace := w.trace ++ [Event.recv fd cap (-1)] })

/-- The assignment `buffer[n] = 0`.  An index outside the array does not touch
the array itself. -/
def terminate (buffer : List Byte) (n : Int) : List Byte :=
  if 0 ≤ n then buffer.set n.toNat 0 else buffer

/-- The `do ... while` loop of `getUserResponse`; `fuel` bounds the number of
iterations. -/
def recvLoop (connectedsocket : Int) :
    Nat → List Byte → List Byte → World → List Byte × World
  | 0, _, response, w => (response, w)
  | fuel + 1, buffer, response, w =>
      let BUFFERSIZE : Nat := 1024
      let (n, buffer, w) := sys_recv connectedsocket BUFFERSIZE buffer w
      let (buffer, response) :=
        if n ≠ 0 then
          let buffer := terminate buffer n
          (buffer, response ++ cstr buffer)
        else (buffer, response)
      if n = (BUFFERSIZE : Int) ∧ n ≠ -1 then recvLoop connectedsocket fuel buffer response w
      else (response, w)

/-- Method `getUserResponse(inf, message)`.  `stack` is the initial content of
the uninitialised local array `char buffer[1025]`.  Every iteration of the loop
takes one result from the `recv` queue and an exhausted queue ends the loop, so
the fuel given is never used up. -/
def getUserResponse (c : Codes) (stack : List Byte) (inf : CmdPetitionPosixSockets)
    (message : List Byte) (w : World) : List Byte × CmdPetitionPosixSockets × World :=
  let connectedsocket := inf.acceptedOutSocket
  let (connectedsocket, w) :=
    if connectedsocket = -1 then
      let (connectedsocket, w) := sys_accept inf.outSocket w
      let w := sys_fcntl connectedsocket w
      (connectedsocket, w)
    else (connectedsocket, w)
  let inf := { inf with acceptedOutSocket := connectedsocket }
  if connectedsocket = -1 then
    let (inf, w) := deletePetition inf w
    (FAILED, inf, w)
  else
    let outCode := c.MCMD_REQSTRING
    let (_, w) := sys_send connectedsocket (Payload.int32 outCode) w
    let (_, w) := sys_send connectedsocket (Payload.bytes message (sendLength message)) w
    let (response, w) := recvLoop connectedsocket (w.recvQ.length + 1) stack [] w
    (response, inf, w)

/-! ## The socket factory -/

/-- System call `socket(AF_UNIX, SOCK_STREAM, 0)`. -/
def sys_socket (w : World) : Int × World :=
  let (r, rest) := nextRes (SysRes.fail EMFILE) w.socketQ
  (r.val, { w with socketQ := rest, errno := r.errnoAfter w.errno,
                   trace := w.trace ++ [Event.socket r.val] })

/-- System call `bind(fd, addr)` to the path `/tmp/megaCMD_<uid>/srv_<sockId>`;
returns `0` on success. -/
def sys_bind (fd : Int) (sockId : Int) (w : World) : Int × World :=
  let (r, rest) := nextRes (SysRes.fail EADDRINUSE) w.bindQ
  let ret : Int := match r with
    | .ok _ => 0
    | .fail _ => -1
  (ret, { w with bindQ := rest, errno := r.errnoAfter w.errno,
                 trace := w.trace ++ [Event.bind fd sockId ret] })

/-- System call `unlink` of the path `/tmp/megaCMD_<uid>/srv_<sockId>`. -/
def sys_unlink (sockId : Int) (w : World) : World :=
  { w with trace := w.trace ++ [Event.unlink sockId] }

/-- System call `listen(fd, backlog)`; its result is only logged. -/
def sys_listen (fd : Int) (backlog : Nat) (w : World) : World :=
  { w with trace := w.trace ++ [Event.listen fd backlog] }

/-- Function `sleep(seconds)`. -/
def sleepSeconds (seconds : Nat) (w : World) : World :=
  { w with trace := w.trace ++ [Event.sleep seconds] }

/-- Function `sleepMilliSeconds(ms)`. -/
def sleepMilliSeconds (ms : Nat) (w : World) : World :=
  { w with trace := w.trace ++ [Event.sleepMilliSeconds ms] }

/-- Modelled from the spec: `informStateListeners` belongs to the base class
`ComunicationsManager`, whose source is not part of the sources; it
"broadcasts to every registered endpoint".  The broadcast is recorded as one
event. -/
def informStateListeners (s : List Byte) (w : World) : World :=
  { w with trace := w.trace ++ [Event.informStateListeners s] }

/-- The first `while (--attempts && !socketsucceded)` loop of
`create_new_socket`.  The first argument is the value of `attempts` before the
decrement in the loop condition; the loop is entered with `10`, so the case `0`
is never reached. -/
def socketLoop : Nat → Int → Bool → World → Int × World
  | 0, thesock, _, w => (thesock, w)
  | attempts + 1, thesock, socketsucceded, w =>
      if attempts ≠ 0 ∧ socketsucceded = false then
        let (thesock, w) := sys_socket w
        let (socketsucceded, w) :=
          if thesock < 0 then
            let w := if w.errno = EMFILE then informStateListeners ack w else w
            let w := sleepMilliSeconds 500 w
            (socketsucceded, w)
          else (true, w)
        let w := sys_fcntl thesock w
        socketLoop attempts thesock socketsucceded w
      else (thesock, w)

/-- The second `while (--attempts && !bindsucceeded)` loop of
`create_new_socket`, entered with `attempts = 10`. -/
def bindLoop (thesock sockId : Int) : Nat → Bool → World → Bool × World
  | 0, bindsucceeded, w => (bindsucceeded, w)
  | attempts + 1, bindsucceeded, w =>
      if attempts ≠ 0 ∧ bindsucceeded = false then
        let (r, w) := sys_bind thesock sockId w
        if r ≠ 0 then
          let w := sleepMilliSeconds 500 w
          bindLoop thesock sockId attempts bindsucceeded w
        else
          bindLoop thesock sockId attempts true w
      else (bindsucceeded, w)

/-- Method `create_new_socket(&sockId)`: the returned `int`, the value of
`*sockId` afterwards, and the new world.  The local `thesock` is assigned in the
first iteration of the first loop before it is read. -/
def create_new_socket (sockId : Int) (w : World) : Int × Int × World :=
  let (thesock, w) := socketLoop 10 (-1) false w
  if thesock < 0 then (-1, sockId, w)
  else
    let (id, w) := get_next_comm_id w
    let sockId := id
    let w := sys_unlink sockId w
    let (bindsucceeded, w) := bindLoop thesock sockId 10 false w
    if bindsucceeded then
      let w := if thesock ≠ 0 then sys_listen thesock 150 w else w
      (thesock, sockId, w)
    else (0, sockId, w)

/-! ## The petition reader -/

/-- The assignment `buffer[n]=0` on the member `buffer`. -/
def World.terminateBuffer (w : World) (n : Int) : World :=
  { w with buffer := terminate w.buffer n }

/-- The `while (n == 1023)` loop of `getPetition`: the last `n`, the text
accumulated in `wholepetition`, and the new world.  `fuel` bounds the number of
iterations. -/
def readLoop (newsockfd : Int) : Nat → Int → List Byte → World → Int × List Byte × World
  | 0, n, wholepetition, w => (n, wholepetition, w)
  | fuel + 1, n, wholepetition, w =>
      if n = 1023 then
        let (total_available_bytes, w) := w.uninitialised
        let (rc, total_available_bytes, w) := sys_ioctl newsockfd total_available_bytes w
        if rc = -1 then (n, wholepetition, w)
        else if total_available_bytes = 0 then (n, wholepetition, w)
        else
          let w := w.terminateBuffer n
          let wholepetition := wholepetition ++ cstr w.buffer
          let (n, w) := sys_read newsockfd 1023 w
          readLoop newsockfd fuel n wholepetition w
      else (n, wholepetition, w)

/-- Method `getPetition()`.  Every iteration of the read loop takes one result
from the `read` queue and an exhausted queue reports end of file, so the fuel
given is never used up. -/
def getPetition (w : World) : CmdPetitionPosixSockets × World :=
  let inf : CmdPetitionPosixSockets := {}
  let (newsockfd, w) := sys_accept w.sockfd w
  let w := sys_fcntl newsockfd w
  if newsockfd < 0 then
    let w := if w.errno = EMFILE then informStateListeners ack w else w
    let w := sleepSeconds 1 w
    ({ inf with line := ERROR }, w)
  else
    let wholepetition : List Byte := []
    let (n, w) := sys_read newsockfd 1023 w
    let (n, wholepetition, w) := readLoop newsockfd (w.readQ.length + 1) n wholepetition w
    let (wholepetition, w) :=
      if n ≥ 0 then
        let w := w.terminateBuffer n
        (wholepetition ++ cstr w.buffer, w)
      else (wholepetition, w)
    if n < 0 then
      ({ inf with line := ERROR }, w)
    else
      let socket_id : Int := 0
      let (outSocket, socket_id, w) := create_new_socket socket_id w
      let inf := { inf with outSocket := outSocket }
      if outSocket = 0 ∨ socket_id = 0 then
        ({ inf with line := ERROR }, w)
      else
        let (n, w) := sys_write newsockfd (Payload.int32 socket_id) w
        if n < 0 then
          ({ inf with line := ERROR }, w)
        else
          let w := sys_close newsockfd w
          ({ inf with line := cstr wholepetition }, w)

/-! ## Sequences of response calls on one petition -/

/-- One call of the response channel on a petition. -/
inductive Call where
  | sendPartialOutput (s : List Byte)
  | getConfirmation (message : List Byte)
  | getUserResponse (message : List Byte)
  | returnAndClosePetition (s : List Byte) (outCode : Int)
  deriving DecidableEq, Repr

/-- Performing one call. -/
def Call.run (c : Codes) (stack : List Byte) (k : Call) (inf : CmdPetitionPosixSockets)
    (w : World) : CmdPetitionPosixSockets × World :=
  match k with
  | .sendPartialOutput s => MegaCmd.sendPartialOutput c inf s w
  | .getConfirmation message => (MegaCmd.getConfirmation c inf message w).2
  | .getUserResponse message => (MegaCmd.getUserResponse c stack inf message w).2
  | .returnAndClosePetition s outCode => MegaCmd.returnAndClosePetition inf s outCode w

/-- Performing a sequence of calls on one petition, in order.  The sequence
ends when the petition has been destroyed: the object no longer exists for the
calls that would follow. -/
def runCalls (c : Codes) (stack : List Byte) :
    List Call → CmdPetitionPosixSockets → World → CmdPetitionPosixSockets × World
  | [], inf, w => (inf, w)
  | k :: ks, inf, w =>
      if inf.deleted = 0 then
        runCalls c stack ks (k.run c stack inf w).1 (k.run c stack inf w).2
      else (inf, w)

/-- The events a computation added to the trace of the world it started in. -/
def newEvents (before after : World) : List Event :=
  after.trace.drop before.trace.length

/-- The `send` calls among a list of events, in order: the descriptor written
to and what was to be transmitted. -/
def sends (evs : List Event) : List (Int × Payload) :=
  evs.filterMap fun e => match e with
    | .send fd p _ => some (fd, p)
    | _ => none

/-- The connection a response call works with: the one cached on the petition,
or else the result of the `accept` on the private endpoint (`-1` when that
fails). -/
def connectionOf (inf : CmdPetitionPosixSockets) (w : World) : Int :=
  if inf.acceptedOutSocket = -1 then (sys_accept inf.outSocket w).1
  else inf.acceptedOutSocket

/-- Values for the status markers, used in concrete examples. -/
def someCodes : Codes := ⟨-62, -60, -61⟩

/-- Whether an event is compatible with reusing the connection `fd`: it is not
an `accept`, and if it is a `send` or a `recv` it is on `fd`. -/
def Event.reuses (fd : Int) : Event → Bool
  | .accept _ _ => false
  | .send f _ _ => decide (f = fd)
  | .recv f _ _ => decide (f = fd)
  | _ => true

/-- The world `w1` is the world `w` after further calls, all of which satisfy
`P`. -/
def Extends (P : Event → Prop) (w w1 : World) : Prop :=
  ∃ evs, w1.trace = w.trace ++ evs ∧ ∀ e ∈ evs, P e

/-- The part of `getPetition` that reads the request (from the first `read` to
the final `append`): the last `n`, the text read, and the new world. -/
def readRequest (newsockfd : Int) (w : World) : Int × List Byte × World :=
  let (n, w) := sys_read newsockfd 1023 w
  let (n, wholepetition, w) := readLoop newsockfd (w.readQ.length + 1) n [] w
  if n ≥ 0 then
    let w := w.terminateBuffer n
    (n, wholepetition ++ cstr w.buffer, w)
  else (n, wholepetition, w)

/-- The part of `getPetition` after the request has been read: creation of the
private endpoint and the write of its identifier to the client. -/
def handoff (newsockfd : Int) (wholepetition : List Byte) (w : World) :
    CmdPetitionPosixSockets × World :=
  let inf : CmdPetitionPosixSockets := {}
  let socket_id : Int := 0
  let (outSocket, socket_id, w) := create_new_socket socket_id w
  let inf := { inf with outSocket := outSocket }
  if outSocket = 0 ∨ socket_id = 0 then
    ({ inf with line := ERROR }, w)
  else
    let (n, w) := sys_write newsockfd (Payload.int32 socket_id) w
    if n < 0 then
      ({ inf with line := ERROR }, w)
    else
      let w := sys_close newsockfd w
      ({ inf with line := cstr wholepetition }, w)

/-- Whether an event is not a failed `accept`, `read` or `write`. -/
def Event.succeeded : Event → Bool
  | .accept _ r => decide (0 ≤ r)
  | .read _ _ r => decide (0 ≤ r)
  | .write _ _ r => decide (0 ≤ r)
  | _ => true

/-- Lookup `connectedsockets.find(key)`: the value stored for `key`, if any. -/
def mapFind (key : Int) : List (Int × Int) → Option Int
  | [] => none
  | (k, v) :: rest => if k = key then some v else mapFind key rest

/-- Assignment `connectedsockets[key] = value`: replaces the value of an
existing entry, or adds an entry. -/
def mapSet (key value : Int) : List (Int × Int) → List (Int × Int)
  | [] => [(key, value)]
  | (k, v) :: rest => if k = key then (k, value) :: rest else (k, v) :: mapSet key value rest

/-- Removal `connectedsockets.erase(key)`. -/
def mapErase (key : Int) (m : List (Int × Int)) : List (Int × Int) :=
  m.filter (fun e => decide (e.1 ≠ key))

/-- System call `select(fd + 1, {fd}, NULL, NULL, timeout)`: the number of
ready descriptors, `0` when the wait timed out, `-1` on failure.  A timeout
leaves `errno` as it was. -/
def sys_select (fd : Int) (seconds : Nat) (w : World) : Int × World :=
  let (r, rest) := nextRes (SysRes.ok 0) w.selectQ
  (r.val, { w with selectQ := rest, errno := r.errnoAfter w.errno,
                   trace := w.trace ++ [Event.select fd seconds r.val] })

/-- System call `fcntl(fd, F_GETFL)`. -/
def sys_fcntl_getfl (fd : Int) (w : World) : World :=
  { w with trace := w.trace ++ [Event.fcntlGetfl fd] }

/-- System call `fcntl(fd, F_SETFL, flags)`. -/
def sys_fcntl_setfl (fd : Int) (w : World) : World :=
  { w with trace := w.trace ++ [Event.fcntlSetfl fd] }

/-- The statement `connectedsockets[key] = value`. -/
def World.setConnected (w : World) (key value : Int) : World :=
  { w with connectedsockets := mapSet key value w.connectedsockets }

/-- The statement `connectedsockets.erase(key)`. -/
def World.eraseConnected (w : World) (key : Int) : World :=
  { w with connectedsockets := mapErase key w.connectedsockets }

/-- The first part of `informStateListener` (the lookup in `connectedsockets`
and, without an entry, the bounded wait and the accept): either the function
returns at once with the given value, or it goes on with `connectedsocket`. -/
def lookupConnection (inf : CmdPetitionPosixSockets) (w : World) :
    Except (Int × World) (Int × World) :=
  match mapFind inf.outSocket w.connectedsockets with
  | none =>
      let (rv, w) := sys_select inf.outSocket 4 w
      if rv = -1 then Except.error (-1, w)
      else
        let (connectedsocket, w) :=
          if rv = 0 then ((-1 : Int), w)
          else
            let w := sys_fcntl_getfl w.sockfd w
            let w := sys_fcntl_setfl inf.outSocket w
            let (connectedsocket, w) := sys_accept inf.outSocket w
            let w := sys_fcntl connectedsocket w
            let w := sys_fcntl_setfl inf.outSocket w
            (connectedsocket, w)
        let w := w.setConnected inf.outSocket connectedsocket
        Except.ok (connectedsocket, w)
  | some connectedsocket => Except.ok (connectedsocket, w)

/-- Method `informStateListener(inf, s)`: the returned `int` and the new world
(the lock guard has no effect on a sequential run). -/
def informStateListener (inf : CmdPetitionPosixSockets) (s : List Byte) (w : World) :
    Int × World :=
  match lookupConnection inf w with
  | Except.error r => r
  | Except.ok (connectedsocket, w) =>
      if connectedsocket = -1 then
        if w.errno = 32 then
          let w := w.eraseConnected inf.outSocket
          (-1, w)
        else (0, w)
      else
        let (n, w) := sys_send connectedsocket (Payload.bytes s s.length) w
        if n < 0 then
          if w.errno = 32 then
            let w := sys_close connectedsocket w
            let w := w.eraseConnected inf.outSocket
            (-1, w)
          else (0, w)
        else (0, w)

/-- The results of the `socket` calls that the creation loop makes when it may
make up to `n` attempts: the queued results up to and including the first
success (a queue that has run out answers with the failure `EMFILE`). -/
def socketAttempts : Nat → List SysRes → List SysRes
  | 0, _ => []
  | n + 1, q =>
      match (nextRes (SysRes.fail EMFILE) q).1 with
      | .ok v => [SysRes.ok v]
      | .fail e => SysRes.fail e :: socketAttempts n (nextRes (SysRes.fail EMFILE) q).2

/-- What one socket-creation attempt is to do according to the exhaustion
relief: a failure with `EMFILE` is followed by the broadcast of `"ack"`; every
failure is followed by the sleep of 500 ms; a success by neither. -/
def attemptEvents : SysRes → List Event
  | .ok v => [Event.socket v, Event.fcntl v]
  | .fail e =>
      if e = EMFILE then
        [Event.socket (-1), Event.informStateListeners ack, Event.sleepMilliSeconds 500,
          Event.fcntl (-1)]
      else [Event.socket (-1), Event.sleepMilliSeconds 500, Event.fcntl (-1)]

/-- The results of the `recv` calls among a list of events, in order. -/
def recvs (evs : List Event) : List Int :=
  evs.filterMap fun e => match e with
    | .recv _ _ r => some r
    | _ => none

@[simp] theorem sys_accept_trace (sock : Int) (w : World) :
    (sys_accept sock w).2.trace = w.trace ++ [Event.accept sock (sys_accept sock w).1] := rfl

@[simp] theorem sys_fcntl_trace (fd : Int) (w : World) :
    (sys_fcntl fd w).trace = w.trace ++ [Event.fcntl fd] := rfl

@[simp] theorem sys_send_trace (fd : Int) (p : Payload) (w : World) :
    (sys_send fd p w).2.trace = w.trace ++ [Event.send fd p (sys_send fd p w).1] := rfl

@[simp] theorem sys_close_trace (fd : Int) (w : World) :
    (sys_close fd w).trace = w.trace ++ [Event.close fd] := rfl

@[simp] theorem deletePetition_fst (inf : CmdPetitionPosixSockets) (w : World) :
    (deletePetition inf w).1 = { inf with deleted := inf.deleted + 1 } := rfl

@[simp] theorem deletePetition_trace (inf : CmdPetitionPosixSockets) (w : World) :
    (deletePetition inf w).2.trace = w.trace ++
      (Event.deletePetition inf.outSocket :: Event.close inf.outSocket ::
        (if inf.acceptedOutSocket ≠ -1 then [Event.close inf.acceptedOutSocket] else [])) := by
  unfold deletePetition
  by_cases h : inf.acceptedOutSocket = -1 <;> simp [h]

theorem newEvents_of_trace (w w1 : World) (evs : List Event)
    (h : w1.trace = w.trace ++ evs) : newEvents w w1 = evs := by
  simp [newEvents, h]

theorem toInt32_of_range (z : Int) (h0 : -2 ^ 31 ≤ z) (h1 : z < 2 ^ 31) : toInt32 z = z := by
  unfold toInt32
  omega

theorem toInt32_add_left (a b : Int) : toInt32 (toInt32 a + b) = toInt32 (a + b) := by
  unfold toInt32
  omega

theorem sendLength_eq (s : List Byte) (h : s.length < 2 ^ 31) :
    sendLength s = max 1 s.length := by
  unfold sendLength toInt32
  omega

/-! ## Partial output on a disconnected petition -/

/-- Claim C3: when the petition's `clientDisconnected` flag is set,
`sendPartialOutput` returns the petition and the world exactly as it received
them, for every chunk: no system call is made (so neither `accept` nor `send`),
and `outSocket`, `acceptedOutSocket` and `clientDisconnected` keep their
values. -/
theorem sendPartialOutput_disconnected_noop (c : Codes) (inf : CmdPetitionPosixSockets)
    (s : List Byte) (w : World) (h : inf.clientDisconnected = true) :
    sendPartialOutput c inf s w = (inf, w)
      ∧ newEvents w (sendPartialOutput c inf s w).2 = [] := by
  have h1 : sendPartialOutput c inf s w = (inf, w) := by simp [sendPartialOutput, h]
  exact ⟨h1, by simp [h1, newEvents]⟩

/-- Witness for `sendPartialOutput_disconnected_noop`: a disconnected petition
with a pending chunk of two bytes. -/
theorem sendPartialOutput_disconnected_noop_witness :
    sendPartialOutput someCodes { clientDisconnected := true, outSocket := 8 } [104, 105]
        { acceptQ := [.ok 9], sendQ := [.ok 4, .ok 8, .ok 2] }
      = ({ clientDisconnected := true, outSocket := 8 },
         { acceptQ := [.ok 9], sendQ := [.ok 4, .ok 8, .ok 2] })
    ∧ newEvents { acceptQ := [.ok 9], sendQ := [.ok 4, .ok 8, .ok 2] }
        (sendPartialOutput someCodes { clientDisconnected := true, outSocket := 8 } [104, 105]
          { acceptQ := [.ok 9], sendQ := [.ok 4, .ok 8, .ok 2] }).2 = [] :=
  sendPartialOutput_disconnected_noop someCodes
    { clientDisconnected := true, outSocket := 8 } [104, 105]
    { acceptQ := [.ok 9], sendQ := [.ok 4, .ok 8, .ok 2] } rfl

/-! ## Marking a petition disconnected -/

/-- Claim C4: the code at a failing input.  The marker is written, then the
write of the chunk size fails with `EPIPE`, and likewise the write of the chunk
bytes: in both cases `sendPartialOutput` returns with `clientDisconnected`
still unset.  Only a failing marker write sets it. -/
theorem sendPartialOutput_later_EPIPE_not_marked :
    (sendPartialOutput someCodes { outSocket := 8, acceptedOutSocket := 9 } [104, 105]
        { sendQ := [.ok 4, .fail EPIPE] }).1.clientDisconnected = false
    ∧ (sendPartialOutput someCodes { outSocket := 8, acceptedOutSocket := 9 } [104, 105]
        { sendQ := [.ok 4, .ok 8, .fail EPIPE] }).1.clientDisconnected = false
    ∧ (sendPartialOutput someCodes { outSocket := 8, acceptedOutSocket := 9 } [104, 105]
        { sendQ := [.fail EPIPE] }).1.clientDisconnected = true := by
  decide

@[simp] theorem sys_accept_sendQ (sock : Int) (w : World) :
    (sys_accept sock w).2.sendQ = w.sendQ := rfl

@[simp] theorem sys_fcntl_sendQ (fd : Int) (w : World) :
    (sys_fcntl fd w).sendQ = w.sendQ := rfl

/-- The sends of `returnAndClosePetition` when a connection is available. -/
theorem returnAndClosePetition_sends (inf : CmdPetitionPosixSockets) (s : List Byte)
    (outCode : Int) (w : World) (hconn : connectionOf inf w ≠ -1) :
    sends (newEvents w (returnAndClosePetition inf s outCode w).2)
      = [(connectionOf inf w, Payload.int32 outCode),
         (connectionOf inf w, Payload.bytes s (sendLength s))] := by
  unfold returnAndClosePetition newEvents
  by_cases h : inf.acceptedOutSocket = -1
  · simp only [connectionOf, h, if_true] at hconn ⊢
    simp [h, hconn, sends]
  · simp [connectionOf, h, sends]

/-! ## The terminal frame -/

/-- Claim C5, as stated, fails for an output of `2 ^ 31` bytes: the cast
`(int)sout.size()` is negative there, so the requested length is `1` and not
the length of the output. -/
theorem returnAndClosePetition_length_counterexample :
    sends (newEvents { sendQ := [.ok 4, .ok 1] }
        (returnAndClosePetition { outSocket := 8, acceptedOutSocket := 9 }
          (List.replicate (2 ^ 31) 65) 0 { sendQ := [.ok 4, .ok 1] }).2)
      = [(9, Payload.int32 0), (9, Payload.bytes (List.replicate (2 ^ 31) 65) 1)]
    ∧ max 1 (List.replicate (2 ^ 31) (65 : Byte)).length ≠ 1 := by
  constructor
  · have hl : sendLength (List.replicate (2 ^ 31) (65 : Byte)) = 1 := by
      unfold sendLength
      rw [List.length_replicate]
      decide
    have hc : connectionOf { outSocket := 8, acceptedOutSocket := 9 }
        { sendQ := [.ok 4, .ok 1] } = 9 := by decide
    rw [returnAndClosePetition_sends _ _ _ _ (by rw [hc]; decide), hc, hl]
  · rw [List.length_replicate]
    decide

/-- Claim C5 (amended): for every output shorter than `2 ^ 31` bytes and every
exit code, when a connection is available (cached on the petition, or accepted
now), the sends of `returnAndClosePetition` are exactly two, on that
connection: first the status code as an `int`, then the output with requested
length `max 1 (length of the output)`. -/
theorem returnAndClosePetition_frame (inf : CmdPetitionPosixSockets) (s : List Byte)
    (outCode : Int) (w : World) (hlen : s.length < 2 ^ 31)
    (hconn : connectionOf inf w ≠ -1) :
    sends (newEvents w (returnAndClosePetition inf s outCode w).2)
      = [(connectionOf inf w, Payload.int32 outCode),
         (connectionOf inf w, Payload.bytes s (max 1 s.length))] := by
  rw [← sendLength_eq s hlen]
  exact returnAndClosePetition_sends inf s outCode w hconn

/-- Witness for `returnAndClosePetition_frame`: an empty output on a petition
whose connection is accepted by the call. -/
theorem returnAndClosePetition_frame_witness :
    sends (newEvents { acceptQ := [.ok 9], sendQ := [.ok 4, .ok 1] }
        (returnAndClosePetition { outSocket := 8 } [] 0
          { acceptQ := [.ok 9], sendQ := [.ok 4, .ok 1] }).2)
      = [(9, Payload.int32 0), (9, Payload.bytes [] 1)] :=
  returnAndClosePetition_frame { outSocket := 8 } [] 0
    { acceptQ := [.ok 9], sendQ := [.ok 4, .ok 1] } (by decide) (by decide)

/-! ## The partial frame -/

/-- Claim C6, as stated, fails for the empty chunk: with a connection available
and every write succeeding, `sendPartialOutput` sends nothing at all. -/
theorem sendPartialOutput_empty_chunk_counterexample :
    sends (newEvents { sendQ := [.ok 4, .ok 8, .ok 0] }
        (sendPartialOutput someCodes { outSocket := 8, acceptedOutSocket := 9 } []
          { sendQ := [.ok 4, .ok 8, .ok 0] }).2) = []
    ∧ sends (newEvents { sendQ := [.ok 4, .ok 8, .ok 0] }
        (sendPartialOutput someCodes { outSocket := 8, acceptedOutSocket := 9 } []
          { sendQ := [.ok 4, .ok 8, .ok 0] }).2)
      ≠ [(9, Payload.int32 someCodes.MCMD_PARTIALOUT), (9, Payload.sizeT 0),
         (9, Payload.bytes [] 0)] := by
  decide

/-- Claim C6 (amended): for every non-empty chunk, when the petition is not
marked disconnected, a connection is available and the three writes succeed,
the sends of `sendPartialOutput` are exactly three, on that connection and in
this order: the `MCMD_PARTIALOUT` marker, the chunk's length as a `size_t`, and
the chunk's bytes in full.  For an empty chunk it sends nothing, whatever the
state of the petition, of the connection and of the writes. -/
theorem sendPartialOutput_frame (c : Codes) (inf : CmdPetitionPosixSockets) (s : List Byte)
    (w : World) (r1 r2 r3 : Nat) (rest : List SysRes) :
    (s ≠ [] → inf.clientDisconnected = false → connectionOf inf w ≠ -1 →
      w.sendQ = .ok r1 :: .ok r2 :: .ok r3 :: rest →
      sends (newEvents w (sendPartialOutput c inf s w).2)
        = [(connectionOf inf w, Payload.int32 c.MCMD_PARTIALOUT),
           (connectionOf inf w, Payload.sizeT s.length),
           (connectionOf inf w, Payload.bytes s s.length)])
    ∧ (s = [] → sends (newEvents w (sendPartialOutput c inf s w).2) = []) := by
  constructor
  · intro hs hdis hconn hsend
    have hs2 : s.length ≠ 0 := by simpa using hs
    have hnn : ∀ v : Nat, ¬ ((v : Int) < 0) := fun v => by omega
    unfold sendPartialOutput newEvents
    by_cases h : inf.acceptedOutSocket = -1
    · simp only [connectionOf, h, if_true] at hconn ⊢
      simp [h, hconn, hdis, hs, sends, sys_send, hsend, nextRes, SysRes.val, hnn]
    · simp [connectionOf, h, hdis, hs, sends, sys_send, hsend, nextRes, SysRes.val, hnn]
  · intro hs
    subst hs
    unfold sendPartialOutput newEvents
    by_cases hdis : inf.clientDisconnected = true
    · simp [hdis, sends]
    · by_cases h : inf.acceptedOutSocket = -1
      · by_cases ha : (sys_accept inf.outSocket w).1 = -1
        · simp [hdis, h, ha, sends]
        · simp [hdis, h, ha, sends]
      · simp [hdis, h, sends]

/-- Witness for `sendPartialOutput_frame`: a chunk of two bytes on a petition
whose connection is already accepted, and the empty chunk on a petition whose
connection the call has yet to accept. -/
theorem sendPartialOutput_frame_witness :
    sends (newEvents { sendQ := [.ok 4, .ok 8, .ok 2] }
        (sendPartialOutput someCodes { outSocket := 8, acceptedOutSocket := 9 } [104, 105]
          { sendQ := [.ok 4, .ok 8, .ok 2] }).2)
      = [(9, Payload.int32 (-62)), (9, Payload.sizeT 2), (9, Payload.bytes [104, 105] 2)]
    ∧ sends (newEvents { acceptQ := [.ok 9], sendQ := [.ok 4, .ok 8, .ok 0] }
        (sendPartialOutput someCodes { outSocket := 8 } []
          { acceptQ := [.ok 9], sendQ := [.ok 4, .ok 8, .ok 0] }).2) = [] :=
  ⟨(sendPartialOutput_frame someCodes { outSocket := 8, acceptedOutSocket := 9 } [104, 105]
      { sendQ := [.ok 4, .ok 8, .ok 2] } 4 8 2 []).1 (by decide) rfl (by decide) rfl,
    (sendPartialOutput_frame someCodes { outSocket := 8 } []
      { acceptQ := [.ok 9], sendQ := [.ok 4, .ok 8, .ok 0] } 4 8 0 []).2 rfl⟩

/-! ## Destruction of the petition -/

/-- Claim C8: on every path of `returnAndClosePetition` (the accept fails, a
send fails, everything succeeds) the petition is destroyed exactly once: its
deletion count grows by one and the call adds exactly one `delete` to the
trace. -/
theorem returnAndClosePetition_deletes_once (inf : CmdPetitionPosixSockets) (s : List Byte)
    (outCode : Int) (w : World) :
    (returnAndClosePetition inf s outCode w).1.deleted = inf.deleted + 1
    ∧ (newEvents w (returnAndClosePetition inf s outCode w).2).count
          (Event.deletePetition inf.outSocket) = 1
    ∧ ∀ sock, Event.deletePetition sock ∈ newEvents w (returnAndClosePetition inf s outCode w).2
        → sock = inf.outSocket := by
  unfold returnAndClosePetition newEvents
  by_cases h : inf.acceptedOutSocket = -1
  · by_cases h2 : (sys_accept inf.outSocket w).1 = -1
    · simp [h, h2]
    · simp [h, h2]
  · simp [h]

/-- Claim C9: the code at a failing input.  On a live petition without a cached
connection whose accept fails, `getConfirmation` and `getUserResponse` destroy
the petition; `sendPartialOutput` does not.  A `returnAndClosePetition` that
follows `getConfirmation` then destroys the petition a second time. -/
theorem prompt_failed_accept_deletes :
    (getConfirmation someCodes { outSocket := 8 } [63] { acceptQ := [.fail EMFILE] }).2.1.deleted = 1
    ∧ (getUserResponse someCodes [] { outSocket := 8 } [63]
        { acceptQ := [.fail EMFILE] }).2.1.deleted = 1
    ∧ (sendPartialOutput someCodes { outSocket := 8 } [63]
        { acceptQ := [.fail EMFILE] }).1.deleted = 0
    ∧ (returnAndClosePetition
        (getConfirmation someCodes { outSocket := 8 } [63] { acceptQ := [.fail EMFILE] }).2.1
        [] 0
        (getConfirmation someCodes { outSocket := 8 } [63] { acceptQ := [.fail EMFILE] }).2.2).1.deleted
      = 2 := by
  decide


/-! ## Endpoint identifiers -/

/-- Closed form of the identifiers of `n` successive calls. -/
theorem comm_ids_eq (n : Nat) (w : World) :
    comm_ids n w = (List.range n).map (fun (k : Nat) => toInt32 (w.count + ((k : Int) + 1))) := by
  induction n generalizing w with
  | zero => rfl
  | succ n ih =>
    rw [comm_ids, ih, List.range_succ_eq_map, List.map_cons, List.map_map]
    congr 1
    apply List.map_congr_left
    intro k _
    simp only [get_next_comm_id, Function.comp, Nat.succ_eq_add_one, Nat.cast_add, Nat.cast_one,
      toInt32_add_left]
    congr 1
    ring

/-- From `count = 0` the first `2 ^ 31 - 1` calls return `1, 2, 3, ...`. -/
theorem comm_ids_from_zero (n : Nat) (w : World) (h0 : w.count = 0) (hn : n < 2 ^ 31) :
    comm_ids n w = (List.range n).map (fun (k : Nat) => (k : Int) + 1) := by
  rw [comm_ids_eq]
  apply List.map_congr_left
  intro k hk
  have hk2 : k < n := List.mem_range.mp hk
  rw [h0, zero_add]
  apply toInt32_of_range <;> omega

/-- Claim C2, as stated, fails for a sequence of `2 ^ 31` calls: the last call
increments `count = 2147483647` and returns the `int` value `-2147483648`,
which is not greater than the values returned before it. -/
theorem comm_ids_overflow_counterexample :
    ¬ (comm_ids (2 ^ 31) {}).Pairwise (fun a b => a < b) := by
  intro h
  rw [comm_ids_eq, List.pairwise_map, List.pairwise_iff_getElem] at h
  have h1 := h 0 (2 ^ 31 - 1) (by rw [List.length_range]; decide)
    (by rw [List.length_range]; decide) (by decide)
  rw [List.getElem_range, List.getElem_range] at h1
  revert h1
  decide

/-- Claim C2 (amended): starting from the constructor's `count = 0`, for every
sequence of fewer than `2 ^ 31` calls of `get_next_comm_id`, each call returns a
value strictly greater than every value returned before it, so the identifiers
handed out are pairwise different. -/
theorem comm_ids_strictly_increasing (n : Nat) (w : World) (h0 : w.count = 0)
    (hn : n < 2 ^ 31) :
    (comm_ids n w).Pairwise (fun a b => a < b) ∧ (comm_ids n w).Nodup := by
  have hp : (comm_ids n w).Pairwise (fun a b => a < b) := by
    rw [comm_ids_from_zero n w h0 hn, List.pairwise_map]
    exact (List.pairwise_lt_range n).imp (fun {a b} hab => by omega)
  exact ⟨hp, hp.imp (fun {a b} hab => ne_of_lt hab)⟩

/-- Witness for `comm_ids_strictly_increasing`: three calls after construction
return `1, 2, 3`. -/
theorem comm_ids_strictly_increasing_witness :
    (comm_ids 3 {}).Pairwise (fun a b => a < b) ∧ (comm_ids 3 {}).Nodup :=
  comm_ids_strictly_increasing 3 {} rfl (by decide)

/-! ## One accept per petition -/

theorem Extends.refl (P : Event → Prop) (w : World) : Extends P w w :=
  ⟨[], by simp, by simp⟩

theorem Extends.followedBy {P : Event → Prop} {w w1 w2 : World}
    (h1 : Extends P w w1) (h2 : Extends P w1 w2) : Extends P w w2 := by
  obtain ⟨e1, t1, p1⟩ := h1
  obtain ⟨e2, t2, p2⟩ := h2
  refine ⟨e1 ++ e2, by rw [t2, t1, List.append_assoc], ?_⟩
  intro e he
  rcases List.mem_append.mp he with h | h
  · exact p1 e h
  · exact p2 e h

theorem Extends.newEvents {P : Event → Prop} {w w1 : World} (h : Extends P w w1) :
    ∀ e ∈ newEvents w w1, P e := by
  obtain ⟨evs, t, p⟩ := h
  rw [newEvents_of_trace w w1 evs t]
  exact p

theorem sys_recv_trace (fd : Int) (cap : Nat) (buffer : List Byte) (w : World) :
    (sys_recv fd cap buffer w).2.2.trace
      = w.trace ++ [Event.recv fd cap (sys_recv fd cap buffer w).1] := by
  unfold sys_recv
  cases h : (nextRes (RecvRes.data []) w.recvQ).1 <;> simp [h]

theorem recvLoop_extends (fd : Int) (fuel : Nat) (buffer response : List Byte) (w : World) :
    Extends (fun e => ∃ cap r, e = Event.recv fd cap r) w (recvLoop fd fuel buffer response w).2 := by
  induction fuel generalizing buffer response w with
  | zero => exact Extends.refl _ _
  | succ fuel ih =>
    unfold recvLoop
    have hstep : Extends (fun e => ∃ cap r, e = Event.recv fd cap r) w
        (sys_recv fd 1024 buffer w).2.2 :=
      ⟨_, sys_recv_trace fd 1024 buffer w, by simp⟩
    simp only []
    split
    · exact hstep.followedBy (ih _ _ _)
    · exact hstep


theorem Extends.mono {P Q : Event → Prop} {w w1 : World} (hPQ : ∀ e, P e → Q e)
    (h : Extends P w w1) : Extends Q w w1 := by
  obtain ⟨evs, t, p⟩ := h
  exact ⟨evs, t, fun e he => hPQ e (p e he)⟩

theorem sys_recv_int_trace (fd : Int) (w : World) :
    (sys_recv_int fd w).2.2.trace = w.trace ++ [Event.recv fd 4 (sys_recv_int fd w).1] := by
  unfold sys_recv_int
  cases h : (nextRes (RecvRes.data []) w.recvQ).1 <;> simp [h]

theorem returnAndClosePetition_reuses (inf : CmdPetitionPosixSockets) (s : List Byte)
    (outCode : Int) (w : World) (h : inf.acceptedOutSocket ≠ -1) :
    (returnAndClosePetition inf s outCode w).1.acceptedOutSocket = inf.acceptedOutSocket
    ∧ Extends (fun e => e.reuses inf.acceptedOutSocket = true) w
        (returnAndClosePetition inf s outCode w).2 := by
  unfold returnAndClosePetition Extends
  simp [h, Event.reuses]

theorem sendPartialOutput_reuses (c : Codes) (inf : CmdPetitionPosixSockets) (s : List Byte)
    (w : World) (h : inf.acceptedOutSocket ≠ -1) :
    (sendPartialOutput c inf s w).1.acceptedOutSocket = inf.acceptedOutSocket
    ∧ Extends (fun e => e.reuses inf.acceptedOutSocket = true) w
        (sendPartialOutput c inf s w).2 := by
  unfold sendPartialOutput Extends
  simp only [h, if_false]
  split_ifs <;> simp [Event.reuses]

theorem getConfirmation_reuses (c : Codes) (inf : CmdPetitionPosixSockets) (message : List Byte)
    (w : World) (h : inf.acceptedOutSocket ≠ -1) :
    (getConfirmation c inf message w).2.1.acceptedOutSocket = inf.acceptedOutSocket
    ∧ Extends (fun e => e.reuses inf.acceptedOutSocket = true) w
        (getConfirmation c inf message w).2.2 := by
  unfold getConfirmation Extends
  simp [h, Event.reuses, sys_recv_int_trace]

theorem getUserResponse_reuses (c : Codes) (stack : List Byte) (inf : CmdPetitionPosixSockets)
    (message : List Byte) (w : World) (h : inf.acceptedOutSocket ≠ -1) :
    (getUserResponse c stack inf message w).2.1.acceptedOutSocket = inf.acceptedOutSocket
    ∧ Extends (fun e => e.reuses inf.acceptedOutSocket = true) w
        (getUserResponse c stack inf message w).2.2 := by
  unfold getUserResponse
  simp only [h, if_false]
  refine ⟨trivial, ?_⟩
  refine Extends.followedBy ?_ (Extends.mono ?_ (recvLoop_extends _ _ _ _ _))
  · unfold Extends
    simp [Event.reuses]
  · rintro e ⟨cap, r, rfl⟩
    simp [Event.reuses]

theorem Call.run_reuses (c : Codes) (stack : List Byte) (k : Call)
    (inf : CmdPetitionPosixSockets) (w : World) (h : inf.acceptedOutSocket ≠ -1) :
    (k.run c stack inf w).1.acceptedOutSocket = inf.acceptedOutSocket
    ∧ Extends (fun e => e.reuses inf.acceptedOutSocket = true) w (k.run c stack inf w).2 := by
  cases k with
  | sendPartialOutput s => exact sendPartialOutput_reuses c inf s w h
  | getConfirmation message => exact getConfirmation_reuses c inf message w h
  | getUserResponse message => exact getUserResponse_reuses c stack inf message w h
  | returnAndClosePetition s outCode => exact returnAndClosePetition_reuses inf s outCode w h

theorem runCalls_reuses (c : Codes) (stack : List Byte) (ks : List Call)
    (inf : CmdPetitionPosixSockets) (w : World) (h : inf.acceptedOutSocket ≠ -1) :
    (runCalls c stack ks inf w).1.acceptedOutSocket = inf.acceptedOutSocket
    ∧ Extends (fun e => e.reuses inf.acceptedOutSocket = true) w (runCalls c stack ks inf w).2 := by
  induction ks generalizing inf w with
  | nil => exact ⟨rfl, Extends.refl _ _⟩
  | cons k ks ih =>
    unfold runCalls
    split
    · obtain ⟨h1, h2⟩ := Call.run_reuses c stack k inf w h
      obtain ⟨h3, h4⟩ := ih (k.run c stack inf w).1 (k.run c stack inf w).2 (by rw [h1]; exact h)
      rw [h1] at h3 h4
      exact ⟨h3, h2.followedBy h4⟩
    · exact ⟨rfl, Extends.refl _ _⟩

theorem returnAndClosePetition_stores (inf : CmdPetitionPosixSockets) (s : List Byte)
    (outCode : Int) (w : World) (sock fd : Int) (hfd : fd ≠ -1)
    (h : inf.acceptedOutSocket = -1)
    (hacc : Event.accept sock fd ∈ newEvents w (returnAndClosePetition inf s outCode w).2) :
    (returnAndClosePetition inf s outCode w).1.acceptedOutSocket = fd := by
  unfold returnAndClosePetition newEvents at *
  by_cases h2 : (sys_accept inf.outSocket w).1 = -1
  · simp [h, h2] at hacc
    exact absurd hacc.2 hfd
  · simp [h, h2] at hacc ⊢
    exact hacc.2.symm

theorem sendPartialOutput_stores (c : Codes) (inf : CmdPetitionPosixSockets) (s : List Byte)
    (w : World) (sock fd : Int) (hfd : fd ≠ -1) (h : inf.acceptedOutSocket = -1)
    (hacc : Event.accept sock fd ∈ newEvents w (sendPartialOutput c inf s w).2) :
    (sendPartialOutput c inf s w).1.acceptedOutSocket = fd := by
  unfold sendPartialOutput newEvents at *
  by_cases hd : inf.clientDisconnected = true
  · simp [hd] at hacc
  · by_cases h2 : (sys_accept inf.outSocket w).1 = -1
    · simp [h, h2, hd] at hacc
      exact absurd hacc.2 hfd
    · simp only [h, h2, hd, if_true, if_false] at hacc ⊢
      split_ifs at hacc ⊢ <;> simp at hacc ⊢ <;> exact hacc.2.symm

theorem getConfirmation_stores (c : Codes) (inf : CmdPetitionPosixSockets)
    (message : List Byte) (w : World) (sock fd : Int) (hfd : fd ≠ -1)
    (h : inf.acceptedOutSocket = -1)
    (hacc : Event.accept sock fd ∈ newEvents w (getConfirmation c inf message w).2.2) :
    (getConfirmation c inf message w).2.1.acceptedOutSocket = fd := by
  unfold getConfirmation newEvents at *
  by_cases h2 : (sys_accept inf.outSocket w).1 = -1
  · simp [h, h2] at hacc
    exact absurd hacc.2 hfd
  · simp [h, h2, sys_recv_int_trace] at hacc ⊢
    exact hacc.2.symm

theorem getUserResponse_stores (c : Codes) (stack : List Byte) (inf : CmdPetitionPosixSockets)
    (message : List Byte) (w : World) (sock fd : Int) (hfd : fd ≠ -1)
    (h : inf.acceptedOutSocket = -1)
    (hacc : Event.accept sock fd ∈ newEvents w (getUserResponse c stack inf message w).2.2) :
    (getUserResponse c stack inf message w).2.1.acceptedOutSocket = fd := by
  unfold getUserResponse newEvents at *
  by_cases h2 : (sys_accept inf.outSocket w).1 = -1
  · simp [h, h2] at hacc
    exact absurd hacc.2 hfd
  · simp only [h, h2, if_true, if_false] at hacc ⊢
    obtain ⟨evs, t, p⟩ := recvLoop_extends (sys_accept inf.outSocket w).1
      ((sys_send (sys_accept inf.outSocket w).1
          (Payload.bytes message (sendLength message))
          (sys_send (sys_accept inf.outSocket w).1 (Payload.int32 c.MCMD_REQSTRING)
            (sys_fcntl (sys_accept inf.outSocket w).1 (sys_accept inf.outSocket w).2)).2).2.recvQ.length + 1)
      stack []
      (sys_send (sys_accept inf.outSocket w).1
          (Payload.bytes message (sendLength message))
          (sys_send (sys_accept inf.outSocket w).1 (Payload.int32 c.MCMD_REQSTRING)
            (sys_fcntl (sys_accept inf.outSocket w).1 (sys_accept inf.outSocket w).2)).2).2
    rw [t] at hacc
    simp at hacc
    rcases hacc with hacc | hacc
    · exact hacc.2.symm
    · obtain ⟨cap, r, he⟩ := p _ hacc
      cases he

/-- Claim C7: in every sequence of response calls on one petition, once a call
has accepted a connection successfully (its `accept` returned `fd`, not `-1`),
that connection is stored in `acceptedOutSocket`, and in all the calls that
follow, however many and in whatever order, there is no further `accept`, every
`send` and `recv` is on `fd`, and `acceptedOutSocket` still holds `fd`. -/
theorem connection_accepted_once (c : Codes) (stack : List Byte) (k : Call) (ks : List Call)
    (inf : CmdPetitionPosixSockets) (w : World) (sock fd : Int) (hfd : fd ≠ -1)
    (hacc : Event.accept sock fd ∈ newEvents w (k.run c stack inf w).2) :
    (k.run c stack inf w).1.acceptedOutSocket = fd
    ∧ (runCalls c stack ks (k.run c stack inf w).1 (k.run c stack inf w).2).1.acceptedOutSocket
        = fd
    ∧ ∀ e ∈ newEvents (k.run c stack inf w).2
          (runCalls c stack ks (k.run c stack inf w).1 (k.run c stack inf w).2).2,
        e.reuses fd = true := by
  have hstore : (k.run c stack inf w).1.acceptedOutSocket = fd := by
    by_cases h : inf.acceptedOutSocket = -1
    · cases k with
      | sendPartialOutput s => exact sendPartialOutput_stores c inf s w sock fd hfd h hacc
      | getConfirmation message => exact getConfirmation_stores c inf message w sock fd hfd h hacc
      | getUserResponse message =>
        exact getUserResponse_stores c stack inf message w sock fd hfd h hacc
      | returnAndClosePetition s outCode =>
        exact returnAndClosePetition_stores inf s outCode w sock fd hfd h hacc
    · have hr := (Call.run_reuses c stack k inf w h).2.newEvents _ hacc
      simp [Event.reuses] at hr
  obtain ⟨h1, h2⟩ := runCalls_reuses c stack ks (k.run c stack inf w).1 (k.run c stack inf w).2
    (by rw [hstore]; exact hfd)
  rw [hstore] at h1 h2
  exact ⟨hstore, h1, h2.newEvents⟩

/-- Witness for `connection_accepted_once`: a partial output accepts the
connection `9`; a prompt, another partial output and the final response follow. -/
theorem connection_accepted_once_witness :
    (Call.run someCodes [] (Call.sendPartialOutput [104, 105]) { outSocket := 8 }
        { acceptQ := [.ok 9] }).1.acceptedOutSocket = 9
    ∧ (runCalls someCodes []
        [Call.getConfirmation [63], Call.sendPartialOutput [33],
         Call.returnAndClosePetition [] 0]
        (Call.run someCodes [] (Call.sendPartialOutput [104, 105]) { outSocket := 8 }
          { acceptQ := [.ok 9] }).1
        (Call.run someCodes [] (Call.sendPartialOutput [104, 105]) { outSocket := 8 }
          { acceptQ := [.ok 9] }).2).1.acceptedOutSocket = 9
    ∧ ∀ e ∈ newEvents
          (Call.run someCodes [] (Call.sendPartialOutput [104, 105]) { outSocket := 8 }
            { acceptQ := [.ok 9] }).2
          (runCalls someCodes []
            [Call.getConfirmation [63], Call.sendPartialOutput [33],
             Call.returnAndClosePetition [] 0]
            (Call.run someCodes [] (Call.sendPartialOutput [104, 105]) { outSocket := 8 }
              { acceptQ := [.ok 9] }).1
            (Call.run someCodes [] (Call.sendPartialOutput [104, 105]) { outSocket := 8 }
              { acceptQ := [.ok 9] }).2).2,
        e.reuses 9 = true :=
  connection_accepted_once someCodes [] (Call.sendPartialOutput [104, 105])
    [Call.getConfirmation [63], Call.sendPartialOutput [33], Call.returnAndClosePetition [] 0]
    { outSocket := 8 } { acceptQ := [.ok 9] } 8 9 (by decide) (by decide)

/-! ## The error petition -/

/-- The method `getPetition` in terms of its two parts `readRequest` and `handoff`. -/
theorem getPetition_eq (w : World) :
    getPetition w =
      if (sys_accept w.sockfd w).1 < 0 then
        ({ line := ERROR },
          sleepSeconds 1
            (if (sys_fcntl (sys_accept w.sockfd w).1 (sys_accept w.sockfd w).2).errno = EMFILE
              then informStateListeners ack
                (sys_fcntl (sys_accept w.sockfd w).1 (sys_accept w.sockfd w).2)
              else sys_fcntl (sys_accept w.sockfd w).1 (sys_accept w.sockfd w).2))
      else if (readRequest (sys_accept w.sockfd w).1
          (sys_fcntl (sys_accept w.sockfd w).1 (sys_accept w.sockfd w).2)).1 < 0 then
        ({ line := ERROR }, (readRequest (sys_accept w.sockfd w).1
          (sys_fcntl (sys_accept w.sockfd w).1 (sys_accept w.sockfd w).2)).2.2)
      else
        handoff (sys_accept w.sockfd w).1
          (readRequest (sys_accept w.sockfd w).1
            (sys_fcntl (sys_accept w.sockfd w).1 (sys_accept w.sockfd w).2)).2.1
          (readRequest (sys_accept w.sockfd w).1
            (sys_fcntl (sys_accept w.sockfd w).1 (sys_accept w.sockfd w).2)).2.2 := by
  unfold getPetition readRequest handoff
  simp only []
  split_ifs <;> rfl

theorem sys_read_trace (fd : Int) (cap : Nat) (w : World) :
    (sys_read fd cap w).2.trace = w.trace ++ [Event.read fd cap (sys_read fd cap w).1] := by
  unfold sys_read
  cases h : (nextRes (RecvRes.data []) w.readQ).1 <;> simp [h]

@[simp] theorem sys_ioctl_trace (fd : Int) (old : Nat) (w : World) :
    (sys_ioctl fd old w).2.2.trace = w.trace ++ [Event.ioctl fd (sys_ioctl fd old w).1] := rfl

@[simp] theorem uninitialised_trace (w : World) : w.uninitialised.2.trace = w.trace := rfl

@[simp] theorem sys_write_trace (fd : Int) (p : Payload) (w : World) :
    (sys_write fd p w).2.trace = w.trace ++ [Event.write fd p (sys_write fd p w).1] := rfl

@[simp] theorem sys_socket_trace (w : World) :
    (sys_socket w).2.trace = w.trace ++ [Event.socket (sys_socket w).1] := rfl

@[simp] theorem sys_bind_trace (fd sockId : Int) (w : World) :
    (sys_bind fd sockId w).2.trace = w.trace ++ [Event.bind fd sockId (sys_bind fd sockId w).1] :=
  rfl

@[simp] theorem sleepMilliSeconds_trace (ms : Nat) (w : World) :
    (sleepMilliSeconds ms w).trace = w.trace ++ [Event.sleepMilliSeconds ms] := rfl

@[simp] theorem informStateListeners_trace (s : List Byte) (w : World) :
    (informStateListeners s w).trace = w.trace ++ [Event.informStateListeners s] := rfl

@[simp] theorem sys_unlink_trace (sockId : Int) (w : World) :
    (sys_unlink sockId w).trace = w.trace ++ [Event.unlink sockId] := rfl

@[simp] theorem sys_listen_trace (fd : Int) (backlog : Nat) (w : World) :
    (sys_listen fd backlog w).trace = w.trace ++ [Event.listen fd backlog] := rfl

@[simp] theorem sleepSeconds_trace (seconds : Nat) (w : World) :
    (sleepSeconds seconds w).trace = w.trace ++ [Event.sleep seconds] := rfl

@[simp] theorem get_next_comm_id_trace (w : World) :
    (get_next_comm_id w).2.trace = w.trace := rfl

/-- The read loop is not entered when the last read did not fill the chunk. -/
theorem readLoop_of_ne (fd : Int) (fuel : Nat) (n : Int) (wp : List Byte) (w : World)
    (h : n ≠ 1023) : readLoop fd fuel n wp w = (n, wp, w) := by
  cases fuel with
  | zero => rfl
  | succ fuel => simp [readLoop, h]

/-- The events of the read loop: `ioctl` and `read` calls; a failed `read` is
the last one and its result is the result of the loop. -/
theorem readLoop_events (fd : Int) (fuel : Nat) (n : Int) (wp : List Byte) (w : World) :
    ∃ evs, (readLoop fd fuel n wp w).2.2.trace = w.trace ++ evs
      ∧ ∀ e ∈ evs, e.succeeded = true ∨ (readLoop fd fuel n wp w).1 < 0 := by
  induction fuel generalizing n wp w with
  | zero => exact ⟨[], by simp [readLoop], by simp⟩
  | succ fuel ih =>
    unfold readLoop
    by_cases hn : n = 1023
    · by_cases h1 : (sys_ioctl fd w.uninitialised.1 w.uninitialised.2).1 = -1
      · exact ⟨[Event.ioctl fd (sys_ioctl fd w.uninitialised.1 w.uninitialised.2).1], by simp [hn, h1], by simp [Event.succeeded]⟩
      · by_cases h2 : (sys_ioctl fd w.uninitialised.1 w.uninitialised.2).2.1 = 0
        · exact ⟨[Event.ioctl fd (sys_ioctl fd w.uninitialised.1 w.uninitialised.2).1], by simp [hn, h1, h2],
            by simp [Event.succeeded]⟩
        · simp only [hn, h1, h2, if_true, if_false]
          obtain ⟨evs, t, p⟩ := ih
            (sys_read fd 1023
              ((sys_ioctl fd w.uninitialised.1 w.uninitialised.2).2.2.terminateBuffer 1023)).1
            (wp ++ cstr ((sys_ioctl fd w.uninitialised.1 w.uninitialised.2).2.2.terminateBuffer 1023).buffer)
            (sys_read fd 1023
              ((sys_ioctl fd w.uninitialised.1 w.uninitialised.2).2.2.terminateBuffer 1023)).2
          refine ⟨Event.ioctl fd (sys_ioctl fd w.uninitialised.1 w.uninitialised.2).1 :: Event.read fd 1023 (sys_read fd 1023
              ((sys_ioctl fd w.uninitialised.1 w.uninitialised.2).2.2.terminateBuffer 1023)).1 :: evs, ?_, ?_⟩
          · rw [t, sys_read_trace]
            simp [World.terminateBuffer]
          · intro e he
            rcases List.mem_cons.mp he with rfl | he
            · left; rfl
            · rcases List.mem_cons.mp he with rfl | he
              · by_cases hr : 0 ≤ (sys_read fd 1023
                    ((sys_ioctl fd w.uninitialised.1 w.uninitialised.2).2.2.terminateBuffer 1023)).1
                · left
                  simp [Event.succeeded, hr]
                · right
                  have hne : (sys_read fd 1023
                      ((sys_ioctl fd w.uninitialised.1 w.uninitialised.2).2.2.terminateBuffer 1023)).1 ≠ 1023 := by omega
                  rw [readLoop_of_ne _ _ _ _ _ hne]
                  simpa using hr
              · exact p e he
    · exact ⟨[], by simp [hn], by simp⟩

/-- The events of `readRequest`: unless it ends with an error, no `read` failed. -/
theorem readRequest_events (fd : Int) (w : World) :
    ∃ evs, (readRequest fd w).2.2.trace = w.trace ++ evs
      ∧ ∀ e ∈ evs, e.succeeded = true ∨ (readRequest fd w).1 < 0 := by
  obtain ⟨evs, t, p⟩ := readLoop_events fd ((sys_read fd 1023 w).2.readQ.length + 1)
    (sys_read fd 1023 w).1 [] (sys_read fd 1023 w).2
  have hres : (readRequest fd w).1 = (readLoop fd ((sys_read fd 1023 w).2.readQ.length + 1)
      (sys_read fd 1023 w).1 [] (sys_read fd 1023 w).2).1 := by
    unfold readRequest
    simp only []
    split_ifs <;> rfl
  have htr : (readRequest fd w).2.2.trace = (readLoop fd ((sys_read fd 1023 w).2.readQ.length + 1)
      (sys_read fd 1023 w).1 [] (sys_read fd 1023 w).2).2.2.trace := by
    unfold readRequest
    simp only []
    split_ifs <;> rfl
  refine ⟨Event.read fd 1023 (sys_read fd 1023 w).1 :: evs, ?_, ?_⟩
  · rw [htr, t, sys_read_trace]
    simp
  · intro e he
    rw [hres]
    rcases List.mem_cons.mp he with rfl | he
    · by_cases hr : 0 ≤ (sys_read fd 1023 w).1
      · left
        simp [Event.succeeded, hr]
      · right
        have hne : (sys_read fd 1023 w).1 ≠ 1023 := by omega
        rw [readLoop_of_ne _ _ _ _ _ hne]
        simpa using hr
    · exact p e he

/-- The events of the socket-creation loop: none is a failed `accept`, `read`
or `write`, and a descriptor other than the initial one comes from a `socket`
call. -/
theorem socketLoop_events (attempts : Nat) (thesock : Int) (ok : Bool) (w : World) :
    ∃ evs, (socketLoop attempts thesock ok w).2.trace = w.trace ++ evs
      ∧ (∀ e ∈ evs, e.succeeded = true)
      ∧ ((socketLoop attempts thesock ok w).1 = thesock
          ∨ Event.socket (socketLoop attempts thesock ok w).1 ∈ evs) := by
  induction attempts generalizing thesock ok w with
  | zero => exact ⟨[], by simp [socketLoop], by simp, Or.inl rfl⟩
  | succ attempts ih =>
    unfold socketLoop
    by_cases hc : attempts ≠ 0 ∧ ok = false
    · obtain ⟨ha, rfl⟩ := hc
      have hc : attempts ≠ 0 ∧ True := ⟨ha, trivial⟩
      simp only []
      rw [if_pos hc]
      by_cases hneg : (sys_socket w).1 < 0
      · simp only [hneg, if_true]
        by_cases herr : (sys_socket w).2.errno = EMFILE
        · simp only [herr, if_true]
          obtain ⟨evs, t, p, q⟩ := ih (sys_socket w).1 false
            (sys_fcntl (sys_socket w).1
              (sleepMilliSeconds 500 (informStateListeners ack (sys_socket w).2)))
          refine ⟨Event.socket (sys_socket w).1 :: Event.informStateListeners ack ::
            Event.sleepMilliSeconds 500 :: Event.fcntl (sys_socket w).1 :: evs, ?_, ?_, ?_⟩
          · rw [t]; simp
          · intro e he
            simp only [List.mem_cons] at he
            rcases he with rfl | rfl | rfl | rfl | he
            · rfl
            · rfl
            · rfl
            · rfl
            · exact p e he
          · rcases q with q | q
            · right; rw [q]; simp
            · right; simp [q]
        · simp only [herr, if_false]
          obtain ⟨evs, t, p, q⟩ := ih (sys_socket w).1 false
            (sys_fcntl (sys_socket w).1 (sleepMilliSeconds 500 (sys_socket w).2))
          refine ⟨Event.socket (sys_socket w).1 ::
            Event.sleepMilliSeconds 500 :: Event.fcntl (sys_socket w).1 :: evs, ?_, ?_, ?_⟩
          · rw [t]; simp
          · intro e he
            simp only [List.mem_cons] at he
            rcases he with rfl | rfl | rfl | he
            · rfl
            · rfl
            · rfl
            · exact p e he
          · rcases q with q | q
            · right; rw [q]; simp
            · right; simp [q]
      · simp only [hneg, if_false]
        obtain ⟨evs, t, p, q⟩ := ih (sys_socket w).1 true
          (sys_fcntl (sys_socket w).1 (sys_socket w).2)
        refine ⟨Event.socket (sys_socket w).1 :: Event.fcntl (sys_socket w).1 :: evs, ?_, ?_, ?_⟩
        · rw [t]; simp
        · intro e he
          simp only [List.mem_cons] at he
          rcases he with rfl | rfl | he
          · rfl
          · rfl
          · exact p e he
        · rcases q with q | q
          · right; rw [q]; simp
          · right; simp [q]
    · simp only []
      rw [if_neg hc]
      exact ⟨[], by simp, by simp, Or.inl rfl⟩

/-- The events of the bind loop: none is a failed `accept`, `read` or `write`,
and the loop reports success only after a `bind` that returned `0`. -/
theorem bindLoop_events (thesock sockId : Int) (attempts : Nat) (ok : Bool) (w : World) :
    ∃ evs, (bindLoop thesock sockId attempts ok w).2.trace = w.trace ++ evs
      ∧ (∀ e ∈ evs, e.succeeded = true)
      ∧ ((bindLoop thesock sockId attempts ok w).1 = true
          → ok = true ∨ Event.bind thesock sockId 0 ∈ evs) := by
  induction attempts generalizing ok w with
  | zero => exact ⟨[], by simp [bindLoop], by simp, fun h => Or.inl (by simpa [bindLoop] using h)⟩
  | succ attempts ih =>
    unfold bindLoop
    by_cases hc : attempts ≠ 0 ∧ ok = false
    · obtain ⟨ha, rfl⟩ := hc
      have hc : attempts ≠ 0 ∧ True := ⟨ha, trivial⟩
      simp only []
      rw [if_pos hc]
      by_cases hr : (sys_bind thesock sockId w).1 ≠ 0
      · rw [if_pos hr]
        obtain ⟨evs, t, p, q⟩ := ih false (sleepMilliSeconds 500 (sys_bind thesock sockId w).2)
        refine ⟨Event.bind thesock sockId (sys_bind thesock sockId w).1 ::
          Event.sleepMilliSeconds 500 :: evs, ?_, ?_, ?_⟩
        · rw [t]; simp
        · intro e he
          simp only [List.mem_cons] at he
          rcases he with rfl | rfl | he
          · rfl
          · rfl
          · exact p e he
        · intro h
          rcases q h with q | q
          · exact Or.inl q
          · right; simp [q]
      · rw [if_neg hr]
        obtain ⟨evs, t, p, _⟩ := ih true (sys_bind thesock sockId w).2
        refine ⟨Event.bind thesock sockId (sys_bind thesock sockId w).1 :: evs, ?_, ?_, ?_⟩
        · rw [t]; simp
        · intro e he
          simp only [List.mem_cons] at he
          rcases he with rfl | he
          · rfl
          · exact p e he
        · intro _
          right
          have h0 : (sys_bind thesock sockId w).1 = 0 := by simpa using hr
          rw [h0]
          simp
    · simp only []
      rw [if_neg hc]
      exact ⟨[], by simp, by simp, fun h => Or.inl h⟩

/-- The outcome of `create_new_socket`: it returns `-1` and leaves `*sockId`
alone, or it returns `0`, or some `socket` call and some `bind` call succeeded.
None of its events is a failed `accept`, `read` or `write`. -/
theorem create_new_socket_events (sockId : Int) (w : World) :
    ∃ evs, (create_new_socket sockId w).2.2.trace = w.trace ++ evs
      ∧ (∀ e ∈ evs, e.succeeded = true)
      ∧ (((create_new_socket sockId w).1 = -1 ∧ (create_new_socket sockId w).2.1 = sockId)
          ∨ (create_new_socket sockId w).1 = 0
          ∨ ((∃ r, 0 ≤ r ∧ Event.socket r ∈ evs) ∧ ∃ fd id, Event.bind fd id 0 ∈ evs)) := by
  obtain ⟨e1, t1, p1, q1⟩ := socketLoop_events 10 (-1) false w
  unfold create_new_socket
  simp only []
  by_cases hneg : (socketLoop 10 (-1) false w).1 < 0
  · rw [if_pos hneg]
    exact ⟨e1, t1, p1, Or.inl ⟨rfl, rfl⟩⟩
  · rw [if_neg hneg]
    have hsock : Event.socket (socketLoop 10 (-1) false w).1 ∈ e1 := by
      rcases q1 with q | q
      · omega
      · exact q
    obtain ⟨e2, t2, p2, q2⟩ := bindLoop_events (socketLoop 10 (-1) false w).1
      (get_next_comm_id (socketLoop 10 (-1) false w).2).1 10 false
      (sys_unlink (get_next_comm_id (socketLoop 10 (-1) false w).2).1
        (get_next_comm_id (socketLoop 10 (-1) false w).2).2)
    simp only [sys_unlink_trace, get_next_comm_id_trace] at t2
    by_cases hb : (bindLoop (socketLoop 10 (-1) false w).1
      (get_next_comm_id (socketLoop 10 (-1) false w).2).1 10 false
      (sys_unlink (get_next_comm_id (socketLoop 10 (-1) false w).2).1
        (get_next_comm_id (socketLoop 10 (-1) false w).2).2)).1 = true
    · rw [if_pos hb]
      have hbind := (q2 hb).resolve_left (by simp)
      by_cases h0 : (socketLoop 10 (-1) false w).1 ≠ 0
      · refine ⟨e1 ++ Event.unlink (get_next_comm_id (socketLoop 10 (-1) false w).2).1 :: e2
          ++ [Event.listen (socketLoop 10 (-1) false w).1 150], ?_, ?_, Or.inr (Or.inr ⟨?_, ?_⟩)⟩
        · simp [h0, t2, t1]
        · intro e he
          simp only [List.mem_append, List.mem_cons, List.mem_singleton, List.not_mem_nil,
            or_false] at he
          rcases he with (he | rfl | he) | rfl
          · exact p1 e he
          · rfl
          · exact p2 e he
          · rfl
        · exact ⟨(socketLoop 10 (-1) false w).1, by omega, by simp [hsock]⟩
        · exact ⟨(socketLoop 10 (-1) false w).1,
            (get_next_comm_id (socketLoop 10 (-1) false w).2).1, by simp [hbind]⟩
      · refine ⟨e1 ++ Event.unlink (get_next_comm_id (socketLoop 10 (-1) false w).2).1 :: e2,
          ?_, ?_, Or.inr (Or.inr ⟨?_, ?_⟩)⟩
        · simp [h0, t2, t1]
        · intro e he
          simp only [List.mem_append, List.mem_cons] at he
          rcases he with he | rfl | he
          · exact p1 e he
          · rfl
          · exact p2 e he
        · exact ⟨(socketLoop 10 (-1) false w).1, by omega, by simp [hsock]⟩
        · exact ⟨(socketLoop 10 (-1) false w).1,
            (get_next_comm_id (socketLoop 10 (-1) false w).2).1, by simp [hbind]⟩
    · rw [if_neg hb]
      refine ⟨e1 ++ Event.unlink (get_next_comm_id (socketLoop 10 (-1) false w).2).1 :: e2,
        ?_, ?_, Or.inr (Or.inl rfl)⟩
      · simp [t2, t1]
      · intro e he
        simp only [List.mem_append, List.mem_cons] at he
        rcases he with he | rfl | he
        · exact p1 e he
        · rfl
        · exact p2 e he

/-- The outcome of the handoff: the error petition, or else a `socket` call
and a `bind` call succeeded and no `accept`, `read` or `write` failed. -/
theorem handoff_cases (fd : Int) (wp : List Byte) (w : World) :
    (handoff fd wp w).1.line = ERROR
    ∨ ∃ evs, (handoff fd wp w).2.trace = w.trace ++ evs
        ∧ (∀ e ∈ evs, e.succeeded = true)
        ∧ (∃ r, 0 ≤ r ∧ Event.socket r ∈ evs) ∧ ∃ s id, Event.bind s id 0 ∈ evs := by
  obtain ⟨e1, t1, p1, q1⟩ := create_new_socket_events 0 w
  unfold handoff
  simp only []
  by_cases hc : (create_new_socket 0 w).1 = 0 ∨ (create_new_socket 0 w).2.1 = 0
  · rw [if_pos hc]
    exact Or.inl rfl
  · rw [if_neg hc]
    by_cases hn : (sys_write fd (Payload.int32 (create_new_socket 0 w).2.1)
        (create_new_socket 0 w).2.2).1 < 0
    · rw [if_pos hn]
      exact Or.inl rfl
    · rw [if_neg hn]
      right
      rcases q1 with q | q | ⟨qs, qb⟩
      · exact absurd (Or.inr q.2) hc
      · exact absurd (Or.inl q) hc
      · obtain ⟨r, hr, hs⟩ := qs
        obtain ⟨s, id, hb⟩ := qb
        refine ⟨e1 ++ [Event.write fd (Payload.int32 (create_new_socket 0 w).2.1)
            (sys_write fd (Payload.int32 (create_new_socket 0 w).2.1)
              (create_new_socket 0 w).2.2).1, Event.close fd], ?_, ?_,
          ⟨r, hr, by simp [hs]⟩, ⟨s, id, by simp [hb]⟩⟩
        · simp [t1]
        · intro e he
          simp only [List.mem_append, List.mem_cons, List.mem_singleton, List.not_mem_nil,
            or_false] at he
          rcases he with he | rfl | rfl
          · exact p1 e he
          · simpa [Event.succeeded] using hn
          · rfl

/-- The outcome of `getPetition`: the error petition, or else a `socket` call
and a `bind` call succeeded and no `accept`, `read` or `write` failed. -/
theorem getPetition_cases (w : World) :
    (getPetition w).1.line = ERROR
    ∨ ∃ evs, (getPetition w).2.trace = w.trace ++ evs
        ∧ (∀ e ∈ evs, e.succeeded = true)
        ∧ (∃ r, 0 ≤ r ∧ Event.socket r ∈ evs) ∧ ∃ s id, Event.bind s id 0 ∈ evs := by
  rw [getPetition_eq]
  by_cases ha : (sys_accept w.sockfd w).1 < 0
  · rw [if_pos ha]
    exact Or.inl rfl
  · rw [if_neg ha]
    by_cases hr : (readRequest (sys_accept w.sockfd w).1
        (sys_fcntl (sys_accept w.sockfd w).1 (sys_accept w.sockfd w).2)).1 < 0
    · rw [if_pos hr]
      exact Or.inl rfl
    · rw [if_neg hr]
      obtain ⟨e1, t1, p1⟩ := readRequest_events (sys_accept w.sockfd w).1
        (sys_fcntl (sys_accept w.sockfd w).1 (sys_accept w.sockfd w).2)
      rcases handoff_cases (sys_accept w.sockfd w).1
        (readRequest (sys_accept w.sockfd w).1
          (sys_fcntl (sys_accept w.sockfd w).1 (sys_accept w.sockfd w).2)).2.1
        (readRequest (sys_accept w.sockfd w).1
          (sys_fcntl (sys_accept w.sockfd w).1 (sys_accept w.sockfd w).2)).2.2 with h | h
      · exact Or.inl h
      · right
        obtain ⟨e2, t2, p2, ⟨r, hr0, hs⟩, ⟨s, id, hb⟩⟩ := h
        refine ⟨Event.accept w.sockfd (sys_accept w.sockfd w).1 ::
          Event.fcntl (sys_accept w.sockfd w).1 :: (e1 ++ e2), ?_, ?_,
          ⟨r, hr0, by simp [hs]⟩, ⟨s, id, by simp [hb]⟩⟩
        · rw [t2, t1]
          simp
        · intro e he
          simp only [List.mem_append, List.mem_cons] at he
          rcases he with rfl | rfl | he | he
          · simpa [Event.succeeded] using ha
          · rfl
          · exact (p1 e he).resolve_right hr
          · exact p2 e he

/-- Claim C10: `getPetition` returns the error petition, whose line is
`"ERROR"`, whenever the accept on the primary endpoint fails, a read of the
request returns an error, every socket-creation attempt fails, every bind
attempt fails, or the write of the endpoint identifier to the client fails. -/
theorem getPetition_error_petition (w : World)
    (h : (∃ sock, Event.accept sock (-1) ∈ newEvents w (getPetition w).2)
      ∨ (∃ fd cap, Event.read fd cap (-1) ∈ newEvents w (getPetition w).2)
      ∨ (∀ r, Event.socket r ∈ newEvents w (getPetition w).2 → r < 0)
      ∨ (∀ fd id r, Event.bind fd id r ∈ newEvents w (getPetition w).2 → r ≠ 0)
      ∨ (∃ fd p, Event.write fd p (-1) ∈ newEvents w (getPetition w).2)) :
    (getPetition w).1.line = ERROR := by
  rcases getPetition_cases w with hE | ⟨evs, t, p, ⟨r, hr, hs⟩, ⟨s, id, hb⟩⟩
  · exact hE
  · rw [newEvents_of_trace w _ evs t] at h
    exfalso
    rcases h with ⟨sock, h⟩ | ⟨fd, cap, h⟩ | h | h | ⟨fd, q, h⟩
    · simpa [Event.succeeded] using p _ h
    · simpa [Event.succeeded] using p _ h
    · have := h r hs
      omega
    · exact h s id 0 hb rfl
    · simpa [Event.succeeded] using p _ h

/-- Witness for `getPetition_error_petition`: the request is read, the socket
is created and bound, and the write of the identifier fails. -/
theorem getPetition_error_petition_witness :
    (getPetition
        { acceptQ := [.ok 7], readQ := [.data [108, 115]], socketQ := [.ok 8],
          bindQ := [.ok 0], writeQ := [.fail EPIPE] }).1.line = ERROR :=
  getPetition_error_petition _ (Or.inr (Or.inr (Or.inr (Or.inr ⟨7, Payload.int32 1, by decide⟩))))

/-! ## Chunks in the buffer -/

/-- A chunk without NUL byte that is stored in the buffer and terminated is
read back in full as a C string. -/
theorem cstr_terminate_storeChunk (buf chunk : List Byte) (hlen : chunk.length < buf.length)
    (hnul : ∀ b ∈ chunk, b ≠ 0) :
    cstr (terminate (storeChunk buf chunk) (chunk.length : Int)) = chunk := by
  have h0 : (0 : Int) ≤ (chunk.length : Int) := by omega
  unfold terminate storeChunk cstr
  rw [if_pos h0, Int.toNat_ofNat]
  rw [List.set_append_right _ _ (le_refl _), Nat.sub_self]
  have hd : 0 < (List.drop chunk.length buf).length := by
    rw [List.length_drop]; omega
  obtain ⟨x, xs, hx⟩ : ∃ x xs, List.drop chunk.length buf = x :: xs := by
    cases hl : List.drop chunk.length buf with
    | nil => rw [hl] at hd; simp at hd
    | cons x xs => exact ⟨x, xs, rfl⟩
  rw [hx, List.set_cons_zero, List.takeWhile_append_of_pos]
  · simp
  · intro b hb
    simpa using hnul b hb

theorem length_terminate (buf : List Byte) (n : Int) : (terminate buf n).length = buf.length := by
  unfold terminate
  split <;> simp

theorem length_storeChunk (buf chunk : List Byte) (h : chunk.length ≤ buf.length) :
    (storeChunk buf chunk).length = buf.length := by
  unfold storeChunk
  rw [List.length_append, List.length_drop]
  omega

theorem sys_read_readQ (fd : Int) (cap : Nat) (w : World) :
    (sys_read fd cap w).2.readQ = w.readQ.tail := by
  unfold sys_read
  cases hq : w.readQ with
  | nil => simp [nextRes]
  | cons r rs => cases r <;> simp [nextRes]

theorem sys_read_of_nil (fd : Int) (cap : Nat) (w : World) (h : w.readQ = []) :
    (sys_read fd cap w).1 = 0 := by
  simp [sys_read, nextRes, h]

/-- More fuel than the `read` queue is long does not change the result of the
read loop: the fuel that `getPetition` passes is never used up. -/
theorem readLoop_fuel (fd : Int) (fuel k : Nat) (n : Int) (wp : List Byte) (w : World)
    (h : w.readQ.length < fuel) :
    readLoop fd (fuel + k) n wp w = readLoop fd fuel n wp w := by
  induction fuel generalizing n wp w with
  | zero => omega
  | succ f ih =>
    rw [Nat.add_right_comm, readLoop, readLoop]
    by_cases hn : n = 1023
    · simp only [hn, if_true]
      split_ifs
      · rfl
      · rfl
      · cases hq : w.readQ with
        | nil =>
          have h0 : (sys_read fd 1023 ((sys_ioctl fd w.uninitialised.1 w.uninitialised.2).2.2.terminateBuffer 1023)).1 ≠ 1023 := by
            rw [sys_read_of_nil _ _ _ (by simpa [World.terminateBuffer, sys_ioctl] using hq)]
            omega
          rw [readLoop_of_ne _ _ _ _ _ h0, readLoop_of_ne _ _ _ _ _ h0]
        | cons r rs =>
          apply ih
          rw [sys_read_readQ]
          simp only [World.terminateBuffer, sys_ioctl, World.uninitialised, hq, List.tail_cons]
          rw [hq] at h
          simp at h
          omega
    · simp [hn]

theorem sys_recv_recvQ (fd : Int) (cap : Nat) (buffer : List Byte) (w : World) :
    (sys_recv fd cap buffer w).2.2.recvQ = w.recvQ.tail := by
  unfold sys_recv
  cases hq : w.recvQ with
  | nil => simp [nextRes]
  | cons r rs => cases r <;> simp [nextRes]

theorem sys_recv_of_nil (fd : Int) (cap : Nat) (buffer : List Byte) (w : World)
    (h : w.recvQ = []) : (sys_recv fd cap buffer w).1 = 0 := by
  simp [sys_recv, nextRes, h]

/-- More fuel than the `recv` queue is long does not change the result of the
receive loop: the fuel that `getUserResponse` passes is never used up. -/
theorem recvLoop_fuel (fd : Int) (fuel k : Nat) (buffer response : List Byte) (w : World)
    (h : w.recvQ.length < fuel) :
    recvLoop fd (fuel + k) buffer response w = recvLoop fd fuel buffer response w := by
  induction fuel generalizing buffer response w with
  | zero => omega
  | succ f ih =>
    rw [Nat.add_right_comm, recvLoop, recvLoop]
    simp only []
    by_cases hc : (sys_recv fd 1024 buffer w).1 = ((1024 : Nat) : Int)
        ∧ (sys_recv fd 1024 buffer w).1 ≠ -1
    · rw [if_pos hc, if_pos hc]
      cases hq : w.recvQ with
      | nil =>
        have := sys_recv_of_nil fd 1024 buffer w hq
        omega
      | cons r rs =>
        apply ih
        rw [sys_recv_recvQ, hq, List.tail_cons]
        rw [hq] at h
        simp at h
        omega
    · rw [if_neg hc, if_neg hc]

/-! ## The number of socket-creation attempts -/

/-- Claim C11: the code at a failing input.  The first nine `socket` calls
fail and the tenth would succeed: `create_new_socket` makes nine attempts, each
followed by a sleep of 500 ms, never makes the tenth, and returns `-1`. -/
theorem create_new_socket_gives_up_after_nine :
    (create_new_socket 0
        { socketQ := List.replicate 9 (.fail EINTR) ++ [.ok 8], bindQ := [.ok 0] }).1 = -1
    ∧ (newEvents { socketQ := List.replicate 9 (.fail EINTR) ++ [.ok 8], bindQ := [.ok 0] }
        (create_new_socket 0
          { socketQ := List.replicate 9 (.fail EINTR) ++ [.ok 8], bindQ := [.ok 0] }).2.2).count
          (Event.socket (-1)) = 9
    ∧ (newEvents { socketQ := List.replicate 9 (.fail EINTR) ++ [.ok 8], bindQ := [.ok 0] }
        (create_new_socket 0
          { socketQ := List.replicate 9 (.fail EINTR) ++ [.ok 8], bindQ := [.ok 0] }).2.2).count
          (Event.sleepMilliSeconds 500) = 9
    ∧ Event.socket 8 ∉
        newEvents { socketQ := List.replicate 9 (.fail EINTR) ++ [.ok 8], bindQ := [.ok 0] }
          (create_new_socket 0
            { socketQ := List.replicate 9 (.fail EINTR) ++ [.ok 8], bindQ := [.ok 0] }).2.2 := by
  decide

/-! ## Closing the original connection -/

/-- Claim C14: the code at failing inputs.  The accept on the primary endpoint
returns the connection `7`; when the read of the request fails, when the
private endpoint cannot be created, and when the write of the identifier fails,
`getPetition` returns the error petition without a `close(7)`.  Only the path
that returns a normal petition closes the connection. -/
theorem getPetition_error_paths_leave_connection_open :
    ((getPetition { acceptQ := [.ok 7], readQ := [.fail EINTR] }).1.line = ERROR
      ∧ Event.close 7 ∉ (getPetition { acceptQ := [.ok 7], readQ := [.fail EINTR] }).2.trace)
    ∧ ((getPetition
          { acceptQ := [.ok 7], readQ := [.data [108, 115]], socketQ := [.ok 8],
            bindQ := [] }).1.line = ERROR
      ∧ Event.close 7 ∉ (getPetition
          { acceptQ := [.ok 7], readQ := [.data [108, 115]], socketQ := [.ok 8],
            bindQ := [] }).2.trace)
    ∧ ((getPetition
          { acceptQ := [.ok 7], readQ := [.data [108, 115]], socketQ := [.ok 8],
            bindQ := [.ok 0], writeQ := [.fail EPIPE] }).1.line = ERROR
      ∧ Event.close 7 ∉ (getPetition
          { acceptQ := [.ok 7], readQ := [.data [108, 115]], socketQ := [.ok 8],
            bindQ := [.ok 0], writeQ := [.fail EPIPE] }).2.trace)
    ∧ Event.close 7 ∈ (getPetition
          { acceptQ := [.ok 7], readQ := [.data [108, 115]], socketQ := [.ok 8],
            bindQ := [.ok 0], writeQ := [.ok 4] }).2.trace := by
  decide

/-! ## A push that times out -/

/-- Claim C15: the code at a failing input.  The endpoint `8` has no registry
entry and the wait times out.  With `errno` different from `32` the call
returns `0` but stores the entry `8 ↦ -1`; the next call for the same endpoint,
with the client now connecting, makes no `select`, no `accept` and no `send`,
and returns `0`.  With a stale `errno = 32` the timed-out call returns `-1`. -/
theorem informStateListener_timeout_registers :
    (informStateListener { outSocket := 8 } ack
        { selectQ := [.ok 0, .ok 1], acceptQ := [.ok 9], sendQ := [.ok 3] }).1 = 0
    ∧ mapFind 8 (informStateListener { outSocket := 8 } ack
        { selectQ := [.ok 0, .ok 1], acceptQ := [.ok 9], sendQ := [.ok 3] }).2.connectedsockets
        = some (-1)
    ∧ (informStateListener { outSocket := 8 } ack
        (informStateListener { outSocket := 8 } ack
          { selectQ := [.ok 0, .ok 1], acceptQ := [.ok 9], sendQ := [.ok 3] }).2).1 = 0
    ∧ newEvents
        (informStateListener { outSocket := 8 } ack
          { selectQ := [.ok 0, .ok 1], acceptQ := [.ok 9], sendQ := [.ok 3] }).2
        (informStateListener { outSocket := 8 } ack
          (informStateListener { outSocket := 8 } ack
            { selectQ := [.ok 0, .ok 1], acceptQ := [.ok 9], sendQ := [.ok 3] }).2).2 = []
    ∧ (informStateListener { outSocket := 8 } ack
        { errno := 32, selectQ := [.ok 0, .ok 1], acceptQ := [.ok 9], sendQ := [.ok 3] }).1
        = -1 := by
  decide

/-! ## The terminator of the reply buffer -/

set_option maxRecDepth 100000 in
/-- Claim C18: the code at a failing input.  The `recv` fails, so `n = -1`;
the block guarded by `if (n)` is entered all the same: the text that was in
the buffer before is appended to the response.  The first statement of that
block is the store `buffer[n] = 0`, whose index `-1` is not within `0..1024`
and leaves the 1025 bytes of the buffer as they were. -/
theorem getUserResponse_terminator_at_minus_one :
    (getUserResponse someCodes (88 :: 89 :: List.replicate 1023 0)
        { outSocket := 8, acceptedOutSocket := 9 } [63]
        { sendQ := [.ok 4, .ok 1], recvQ := [.fail EINTR] }).1 = [88, 89]
    ∧ (sys_recv 9 1024 (88 :: 89 :: List.replicate 1023 0) { recvQ := [.fail EINTR] }).1 = -1
    ∧ terminate (88 :: 89 :: List.replicate 1023 0) (-1) = 88 :: 89 :: List.replicate 1023 0
    ∧ ¬ ((0 : Int) ≤ -1 ∧ (-1 : Int) ≤ 1024) := by
  decide

/-! ## Pruning a closed connection -/

theorem mapFind_mapErase (key : Int) (m : List (Int × Int)) :
    mapFind key (mapErase key m) = none := by
  induction m with
  | nil => rfl
  | cons e m ih =>
    obtain ⟨k, v⟩ := e
    by_cases h : k = key
    · simpa [mapErase, h] using ih
    · simpa [mapErase, h, mapFind] using ih

/-- Claim C16: for an endpoint registered with the connection `cs`,
`informStateListener` sends the text on `cs`.  When the send fails with
`errno = 32` (`EPIPE`) it closes `cs`, erases the endpoint's entry and returns
`-1`; when the send succeeds or fails with another error it returns `0`, closes
nothing and leaves the registry as it was. -/
theorem informStateListener_prunes_on_EPIPE (inf : CmdPetitionPosixSockets) (s : List Byte)
    (w : World) (cs : Int) (hreg : mapFind inf.outSocket w.connectedsockets = some cs)
    (hcs : cs ≠ -1) :
    (((sys_send cs (Payload.bytes s s.length) w).1 < 0
        ∧ (sys_send cs (Payload.bytes s s.length) w).2.errno = EPIPE) →
      (informStateListener inf s w).1 = -1
      ∧ newEvents w (informStateListener inf s w).2
          = [Event.send cs (Payload.bytes s s.length) (-1), Event.close cs]
      ∧ (informStateListener inf s w).2.connectedsockets
          = mapErase inf.outSocket w.connectedsockets
      ∧ mapFind inf.outSocket (informStateListener inf s w).2.connectedsockets = none)
    ∧ (¬ ((sys_send cs (Payload.bytes s s.length) w).1 < 0
        ∧ (sys_send cs (Payload.bytes s s.length) w).2.errno = EPIPE) →
      (informStateListener inf s w).1 = 0
      ∧ newEvents w (informStateListener inf s w).2
          = [Event.send cs (Payload.bytes s s.length)
              (sys_send cs (Payload.bytes s s.length) w).1]
      ∧ (informStateListener inf s w).2.connectedsockets = w.connectedsockets) := by
  have hl : lookupConnection inf w = Except.ok (cs, w) := by
    simp [lookupConnection, hreg]
  have hq : (sys_send cs (Payload.bytes s s.length) w).2.connectedsockets
      = w.connectedsockets := rfl
  have hneg : (sys_send cs (Payload.bytes s s.length) w).1 < 0 →
      (sys_send cs (Payload.bytes s s.length) w).1 = -1 := by
    have hv : (sys_send cs (Payload.bytes s s.length) w).1
        = (nextRes (SysRes.fail EINTR) w.sendQ).1.val := rfl
    rw [hv]
    cases (nextRes (SysRes.fail EINTR) w.sendQ).1 with
    | ok v => intro h; simp only [SysRes.val] at h; omega
    | fail e => intro _; rfl
  constructor
  · rintro ⟨h1, h2⟩
    have h2' : (sys_send cs (Payload.bytes s s.length) w).2.errno = 32 := h2
    have hres : informStateListener inf s w
        = (-1, (sys_close cs (sys_send cs (Payload.bytes s s.length) w).2).eraseConnected
            inf.outSocket) := by
      simp only [informStateListener, hl, if_neg hcs, if_pos h1, if_pos h2']
    rw [hres]
    refine ⟨rfl, ?_, ?_, ?_⟩
    · simp [newEvents, World.eraseConnected, hneg h1]
    · simp [World.eraseConnected, sys_close, hq]
    · simp only [World.eraseConnected, sys_close, hq]
      exact mapFind_mapErase _ _
  · intro h
    have hres : informStateListener inf s w
        = (0, (sys_send cs (Payload.bytes s s.length) w).2) := by
      simp only [informStateListener, hl, if_neg hcs]
      by_cases h1 : (sys_send cs (Payload.bytes s s.length) w).1 < 0
      · have h2 : ¬ (sys_send cs (Payload.bytes s s.length) w).2.errno = 32 :=
          fun h2 => h ⟨h1, h2⟩
        rw [if_pos h1, if_neg h2]
      · rw [if_neg h1]
    rw [hres]
    exact ⟨rfl, by simp [newEvents], hq⟩

/-- Witness for `informStateListener_prunes_on_EPIPE`: the endpoint `8` is
registered with the connection `9` and the send fails with `EPIPE`. -/
theorem informStateListener_prunes_on_EPIPE_witness :
    (informStateListener { outSocket := 8 } ack
        { connectedsockets := [(8, 9)], sendQ := [.fail EPIPE] }).1 = -1
    ∧ newEvents { connectedsockets := [(8, 9)], sendQ := [.fail EPIPE] }
        (informStateListener { outSocket := 8 } ack
          { connectedsockets := [(8, 9)], sendQ := [.fail EPIPE] }).2
        = [Event.send 9 (Payload.bytes ack ack.length) (-1), Event.close 9]
    ∧ (informStateListener { outSocket := 8 } ack
        { connectedsockets := [(8, 9)], sendQ := [.fail EPIPE] }).2.connectedsockets
        = mapErase 8 [(8, 9)]
    ∧ mapFind 8 (informStateListener { outSocket := 8 } ack
        { connectedsockets := [(8, 9)], sendQ := [.fail EPIPE] }).2.connectedsockets = none :=
  (informStateListener_prunes_on_EPIPE { outSocket := 8 } ack
    { connectedsockets := [(8, 9)], sendQ := [.fail EPIPE] } 9 (by decide) (by decide)).1
    ⟨by decide, by decide⟩

/-! ## Exhaustion relief -/

/-- The socket-creation loop is not entered once a socket has been created. -/
theorem socketLoop_of_succeeded (attempts : Nat) (thesock : Int) (w : World) :
    socketLoop attempts thesock true w = (thesock, w) := by
  cases attempts with
  | zero => rfl
  | succ n => simp [socketLoop]

@[simp] theorem sys_socket_socketQ (w : World) :
    (sys_socket w).2.socketQ = (nextRes (SysRes.fail EMFILE) w.socketQ).2 := rfl

@[simp] theorem sys_fcntl_socketQ (fd : Int) (w : World) :
    (sys_fcntl fd w).socketQ = w.socketQ := rfl

@[simp] theorem sleepMilliSeconds_socketQ (ms : Nat) (w : World) :
    (sleepMilliSeconds ms w).socketQ = w.socketQ := rfl

@[simp] theorem informStateListeners_socketQ (s : List Byte) (w : World) :
    (informStateListeners s w).socketQ = w.socketQ := rfl

/-- The events of the socket-creation loop, attempt by attempt. -/
theorem socketLoop_trace (attempts : Nat) (thesock : Int) (w : World) :
    (socketLoop (attempts + 1) thesock false w).2.trace
      = w.trace ++ (socketAttempts attempts w.socketQ).flatMap attemptEvents := by
  induction attempts generalizing thesock w with
  | zero => simp [socketLoop, socketAttempts]
  | succ n ih =>
    rw [socketLoop, socketAttempts]
    have hc : n + 1 ≠ 0 ∧ false = false := ⟨by omega, rfl⟩
    rw [if_pos hc]
    have hv : (sys_socket w).1 = (nextRes (SysRes.fail EMFILE) w.socketQ).1.val := rfl
    have he : (sys_socket w).2.errno
        = (nextRes (SysRes.fail EMFILE) w.socketQ).1.errnoAfter w.errno := rfl
    cases hr : (nextRes (SysRes.fail EMFILE) w.socketQ).1 with
    | ok v =>
      have hnn : ¬ (sys_socket w).1 < 0 := by
        rw [hv, hr]; simp only [SysRes.val]; omega
      simp only [hnn, if_false]
      rw [socketLoop_of_succeeded]
      simp [attemptEvents, hv, hr, SysRes.val]
    | fail e =>
      have hneg : (sys_socket w).1 < 0 := by
        rw [hv, hr]; simp [SysRes.val]
      have hm1 : (sys_socket w).1 = -1 := by rw [hv, hr]; rfl
      have hee : (sys_socket w).2.errno = e := by rw [he, hr]; rfl
      simp only [hneg, if_true]
      rw [ih, hee]
      by_cases hE : e = EMFILE
      · rw [if_pos hE]
        simp [attemptEvents, hE, hm1]
      · rw [if_neg hE]
        simp [attemptEvents, hE, hm1]

/-- The bind loop makes `bind` calls and sleeps, nothing else. -/
theorem bindLoop_only_binds (thesock sockId : Int) (attempts : Nat) (ok : Bool) (w : World) :
    Extends (fun e => (∃ fd id r, e = Event.bind fd id r) ∨ e = Event.sleepMilliSeconds 500) w
      (bindLoop thesock sockId attempts ok w).2 := by
  induction attempts generalizing ok w with
  | zero => exact Extends.refl _ _
  | succ attempts ih =>
    unfold bindLoop
    by_cases hc : attempts ≠ 0 ∧ ok = false
    · obtain ⟨ha, rfl⟩ := hc
      have hc : attempts ≠ 0 ∧ True := ⟨ha, trivial⟩
      simp only []
      rw [if_pos hc]
      have h1 : Extends
          (fun e => (∃ fd id r, e = Event.bind fd id r) ∨ e = Event.sleepMilliSeconds 500) w
          (sys_bind thesock sockId w).2 :=
        ⟨[Event.bind thesock sockId (sys_bind thesock sockId w).1], by simp, by simp⟩
      by_cases hr : (sys_bind thesock sockId w).1 ≠ 0
      · rw [if_pos hr]
        have h2 : Extends
            (fun e => (∃ fd id r, e = Event.bind fd id r) ∨ e = Event.sleepMilliSeconds 500)
            (sys_bind thesock sockId w).2 (sleepMilliSeconds 500 (sys_bind thesock sockId w).2) :=
          ⟨[Event.sleepMilliSeconds 500], by simp, by simp⟩
        exact (h1.followedBy h2).followedBy (ih _ _)
      · rw [if_neg hr]
        exact h1.followedBy (ih _ _)
    · simp only []
      rw [if_neg hc]
      exact Extends.refl _ _

/-- Claim C13: the events of `create_new_socket` begin with those of its
socket-creation attempts, one attempt after the other.  An attempt that fails
with `EMFILE` is followed at once, before the sleep and the next attempt, by the
broadcast of `"ack"` through `informStateListeners`; an attempt that fails with
another error, or that succeeds, is followed by no broadcast; and there is no
broadcast and no `socket` call after the attempts. -/
theorem create_new_socket_broadcasts (sockId : Int) (w : World) :
    ∃ rest, newEvents w (create_new_socket sockId w).2.2
        = (socketAttempts 9 w.socketQ).flatMap attemptEvents ++ rest
      ∧ ∀ e ∈ rest, (∀ r, e ≠ Event.socket r) ∧ ∀ s, e ≠ Event.informStateListeners s := by
  have ht := socketLoop_trace 9 (-1) w
  unfold create_new_socket
  simp only []
  by_cases hneg : (socketLoop 10 (-1) false w).1 < 0
  · rw [if_pos hneg]
    exact ⟨[], by rw [List.append_nil]; exact newEvents_of_trace _ _ _ ht, by simp⟩
  · rw [if_neg hneg]
    obtain ⟨evs, t, p⟩ := bindLoop_only_binds (socketLoop 10 (-1) false w).1
      (get_next_comm_id (socketLoop 10 (-1) false w).2).1 10 false
      (sys_unlink (get_next_comm_id (socketLoop 10 (-1) false w).2).1
        (get_next_comm_id (socketLoop 10 (-1) false w).2).2)
    simp only [sys_unlink_trace, get_next_comm_id_trace] at t
    have hp : ∀ e ∈ evs, (∀ r, e ≠ Event.socket r) ∧ ∀ s, e ≠ Event.informStateListeners s := by
      intro e he
      rcases p e he with ⟨fd, id, r, rfl⟩ | rfl <;> simp
    split_ifs with hb h0
    · refine ⟨Event.unlink (get_next_comm_id (socketLoop 10 (-1) false w).2).1 :: evs
        ++ [Event.listen (socketLoop 10 (-1) false w).1 150], ?_, ?_⟩
      · apply newEvents_of_trace
        rw [sys_listen_trace, t, ht]
        simp
      · intro e he
        simp only [List.mem_append, List.mem_cons, List.mem_singleton, List.not_mem_nil,
          or_false] at he
        rcases he with (rfl | he) | rfl
        · simp
        · exact hp e he
        · simp
    · refine ⟨Event.unlink (get_next_comm_id (socketLoop 10 (-1) false w).2).1 :: evs, ?_, ?_⟩
      · apply newEvents_of_trace
        rw [t, ht]
        simp
      · intro e he
        rcases List.mem_cons.mp he with rfl | he
        · simp
        · exact hp e he
    · refine ⟨Event.unlink (get_next_comm_id (socketLoop 10 (-1) false w).2).1 :: evs, ?_, ?_⟩
      · apply newEvents_of_trace
        rw [t, ht]
        simp
      · intro e he
        rcases List.mem_cons.mp he with rfl | he
        · simp
        · exact hp e he

/-! ## The cannot-bind error -/

/-- A successful `socket` call among the attempts yields the descriptor the
loop ends with. -/
theorem socketLoop_created (attempts : Nat) (thesock : Int) (w : World) (r : Int) (hr : 0 ≤ r)
    (hmem : Event.socket r ∈ (socketAttempts attempts w.socketQ).flatMap attemptEvents) :
    (socketLoop (attempts + 1) thesock false w).1 = r := by
  induction attempts generalizing thesock w with
  | zero => simp [socketAttempts] at hmem
  | succ n ih =>
    rw [socketLoop]
    rw [socketAttempts] at hmem
    have hc : n + 1 ≠ 0 ∧ false = false := ⟨by omega, rfl⟩
    rw [if_pos hc]
    have hv : (sys_socket w).1 = (nextRes (SysRes.fail EMFILE) w.socketQ).1.val := rfl
    cases hq : (nextRes (SysRes.fail EMFILE) w.socketQ).1 with
    | ok v =>
      rw [hq] at hmem
      have hnn : ¬ (sys_socket w).1 < 0 := by
        rw [hv, hq]; simp only [SysRes.val]; omega
      simp only [hnn, if_false]
      rw [socketLoop_of_succeeded, hv, hq]
      simp [attemptEvents] at hmem
      simp [SysRes.val, hmem]
    | fail e =>
      rw [hq] at hmem
      have hneg : (sys_socket w).1 < 0 := by
        rw [hv, hq]; simp [SysRes.val]
      simp only [hneg, if_true]
      apply ih
      simp only [List.flatMap_cons, List.mem_append] at hmem
      rcases hmem with h | h
      · exfalso
        simp only [attemptEvents] at h
        split_ifs at h <;> simp at h <;> omega
      · split_ifs <;> simpa using h

/-- The bind loop is not entered once a bind has succeeded. -/
theorem bindLoop_of_succeeded (thesock sockId : Int) (attempts : Nat) (w : World) :
    bindLoop thesock sockId attempts true w = (true, w) := by
  cases attempts with
  | zero => rfl
  | succ n => simp [bindLoop]

/-- The bind loop reports success exactly when one of its `bind` calls
returned `0`. -/
theorem bindLoop_result (thesock sockId : Int) (attempts : Nat) (w : World) :
    ∃ evs, (bindLoop thesock sockId attempts false w).2.trace = w.trace ++ evs
      ∧ (∀ e ∈ evs, (∃ r, e = Event.bind thesock sockId r) ∨ e = Event.sleepMilliSeconds 500)
      ∧ ((bindLoop thesock sockId attempts false w).1 = true
          ↔ Event.bind thesock sockId 0 ∈ evs) := by
  induction attempts generalizing w with
  | zero => exact ⟨[], by simp [bindLoop], by simp, by simp [bindLoop]⟩
  | succ attempts ih =>
    unfold bindLoop
    by_cases ha : attempts ≠ 0
    · have hc : attempts ≠ 0 ∧ True := ⟨ha, trivial⟩
      simp only []
      rw [if_pos hc]
      by_cases hr : (sys_bind thesock sockId w).1 ≠ 0
      · rw [if_pos hr]
        obtain ⟨evs, t, p, q⟩ := ih (sleepMilliSeconds 500 (sys_bind thesock sockId w).2)
        refine ⟨Event.bind thesock sockId (sys_bind thesock sockId w).1 ::
          Event.sleepMilliSeconds 500 :: evs, ?_, ?_, ?_⟩
        · rw [t]; simp
        · intro e he
          simp only [List.mem_cons] at he
          rcases he with rfl | rfl | he
          · exact Or.inl ⟨_, rfl⟩
          · exact Or.inr rfl
          · exact p e he
        · rw [q]
          have hr2 : ¬ (0 = (sys_bind thesock sockId w).1) := fun h => hr h.symm
          simp [hr2]
      · rw [if_neg hr]
        have h0 : (sys_bind thesock sockId w).1 = 0 := by simpa using hr
        rw [bindLoop_of_succeeded]
        exact ⟨[Event.bind thesock sockId (sys_bind thesock sockId w).1], by simp, by simp,
          by simp [h0]⟩
    · have hc : ¬ (attempts ≠ 0 ∧ True) := fun h => ha h.1
      simp only []
      rw [if_neg hc]
      exact ⟨[], by simp, by simp, by simp⟩

/-- No `bind` call is among the events of the socket-creation attempts. -/
theorem attempts_no_bind (l : List SysRes) (fd id r : Int) :
    Event.bind fd id r ∉ l.flatMap attemptEvents := by
  intro h
  obtain ⟨x, _, hx⟩ := List.mem_flatMap.mp h
  cases x with
  | ok v => simp [attemptEvents] at hx
  | fail e =>
    simp only [attemptEvents] at hx
    split_ifs at hx <;> simp at hx

/-- Claim C12, as stated, fails when the socket created has the descriptor `0`:
the first bind attempt succeeds, `create_new_socket` returns `0`, the
cannot-bind value, and `getPetition` returns the error petition. -/
theorem create_new_socket_descriptor_zero_counterexample :
    (create_new_socket 0 { socketQ := [.ok 0], bindQ := [.ok 0] }).1 = 0
    ∧ Event.bind 0 1 0 ∈ newEvents { socketQ := [.ok 0], bindQ := [.ok 0] }
        (create_new_socket 0 { socketQ := [.ok 0], bindQ := [.ok 0] }).2.2
    ∧ (getPetition
        { acceptQ := [.ok 7], readQ := [.data [108, 115]], socketQ := [.ok 0],
          bindQ := [.ok 0], writeQ := [.ok 4] }).1.line = ERROR := by
  decide

/-- Claim C12 (amended): once a socket with a descriptor `r` other than `0`
has been created, `create_new_socket` returns the cannot-bind value `0` if and
only if every bind attempt failed; when some bind attempt succeeds it returns
the created descriptor `r`, which is not `0`, the value that the test
`!inf->outSocket` of `getPetition` takes for a failure. -/
theorem create_new_socket_cannot_bind (sockId : Int) (w : World) (r : Int) (hr : 0 < r)
    (hs : Event.socket r ∈ newEvents w (create_new_socket sockId w).2.2) :
    ((create_new_socket sockId w).1 = 0
        ↔ ∀ fd id res, Event.bind fd id res ∈ newEvents w (create_new_socket sockId w).2.2
            → res ≠ 0)
    ∧ ((∃ fd id, Event.bind fd id 0 ∈ newEvents w (create_new_socket sockId w).2.2)
        → (create_new_socket sockId w).1 = r ∧ (create_new_socket sockId w).1 ≠ 0) := by
  have ht : (socketLoop 10 (-1) false w).2.trace
      = w.trace ++ (socketAttempts 9 w.socketQ).flatMap attemptEvents :=
    socketLoop_trace 9 (-1) w
  have hcr : Event.socket r ∈ (socketAttempts 9 w.socketQ).flatMap attemptEvents →
      (socketLoop 10 (-1) false w).1 = r :=
    socketLoop_created 9 (-1) w r (le_of_lt hr)
  obtain ⟨evs, t, p, q⟩ := bindLoop_result (socketLoop 10 (-1) false w).1
    (get_next_comm_id (socketLoop 10 (-1) false w).2).1 10
    (sys_unlink (get_next_comm_id (socketLoop 10 (-1) false w).2).1
      (get_next_comm_id (socketLoop 10 (-1) false w).2).2)
  simp only [sys_unlink_trace, get_next_comm_id_trace] at t
  have hnosock : ∀ e ∈ evs, e ≠ Event.socket r := by
    intro e he
    rcases p e he with ⟨x, rfl⟩ | rfl <;> simp
  revert hs
  unfold create_new_socket
  simp only []
  by_cases hneg : (socketLoop 10 (-1) false w).1 < 0
  · rw [if_pos hneg]
    intro hs
    rw [newEvents_of_trace _ _ _ ht] at hs
    have := hcr hs
    omega
  · rw [if_neg hneg]
    by_cases hb : (bindLoop (socketLoop 10 (-1) false w).1
        (get_next_comm_id (socketLoop 10 (-1) false w).2).1 10 false
        (sys_unlink (get_next_comm_id (socketLoop 10 (-1) false w).2).1
          (get_next_comm_id (socketLoop 10 (-1) false w).2).2)).1 = true
    · rw [if_pos hb]
      have hbind := q.mp hb
      have hev : ∃ tl, newEvents w
          (if (socketLoop 10 (-1) false w).1 ≠ 0 then
            sys_listen (socketLoop 10 (-1) false w).1 150
              (bindLoop (socketLoop 10 (-1) false w).1
                (get_next_comm_id (socketLoop 10 (-1) false w).2).1 10 false
                (sys_unlink (get_next_comm_id (socketLoop 10 (-1) false w).2).1
                  (get_next_comm_id (socketLoop 10 (-1) false w).2).2)).2
          else
            (bindLoop (socketLoop 10 (-1) false w).1
              (get_next_comm_id (socketLoop 10 (-1) false w).2).1 10 false
              (sys_unlink (get_next_comm_id (socketLoop 10 (-1) false w).2).1
                (get_next_comm_id (socketLoop 10 (-1) false w).2).2)).2)
          = (socketAttempts 9 w.socketQ).flatMap attemptEvents
            ++ Event.unlink (get_next_comm_id (socketLoop 10 (-1) false w).2).1 :: evs ++ tl
          ∧ ∀ e ∈ tl, ∃ fd n, e = Event.listen fd n := by
        split_ifs
        · exact ⟨[Event.listen (socketLoop 10 (-1) false w).1 150],
            newEvents_of_trace _ _ _ (by rw [sys_listen_trace, t, ht]; simp), by simp⟩
        · exact ⟨[], newEvents_of_trace _ _ _ (by rw [t, ht]; simp), by simp⟩
      obtain ⟨tl, hev, htl⟩ := hev
      simp only []
      rw [hev]
      intro hs
      have hthe : (socketLoop 10 (-1) false w).1 = r := by
        apply hcr
        simp only [List.mem_append, List.mem_cons] at hs
        rcases hs with (hs | hs | hs) | hs
        · exact hs
        · cases hs
        · exact absurd rfl (hnosock _ hs)
        · obtain ⟨fd, n, h⟩ := htl _ hs
          cases h
      have hne : (socketLoop 10 (-1) false w).1 ≠ 0 := by omega
      refine ⟨⟨fun h0 => absurd h0 hne, fun hall => ?_⟩, fun _ => ⟨hthe, hne⟩⟩
      exact absurd rfl (hall _ _ 0
        (List.mem_append_left _ (List.mem_append_right _ (List.mem_cons_of_mem _ hbind))))
    · rw [if_neg hb]
      have hev : newEvents w (bindLoop (socketLoop 10 (-1) false w).1
            (get_next_comm_id (socketLoop 10 (-1) false w).2).1 10 false
            (sys_unlink (get_next_comm_id (socketLoop 10 (-1) false w).2).1
              (get_next_comm_id (socketLoop 10 (-1) false w).2).2)).2
          = (socketAttempts 9 w.socketQ).flatMap attemptEvents
            ++ Event.unlink (get_next_comm_id (socketLoop 10 (-1) false w).2).1 :: evs :=
        newEvents_of_trace _ _ _ (by rw [t, ht]; simp)
      simp only []
      rw [hev]
      intro _
      have hnob : ∀ fd id res, Event.bind fd id res ∈
          (socketAttempts 9 w.socketQ).flatMap attemptEvents
            ++ Event.unlink (get_next_comm_id (socketLoop 10 (-1) false w).2).1 :: evs
          → res ≠ 0 := by
        intro fd id res hmem
        simp only [List.mem_append, List.mem_cons] at hmem
        rcases hmem with hmem | hmem | hmem
        · exact absurd hmem (attempts_no_bind _ _ _ _)
        · cases hmem
        · rcases p _ hmem with ⟨x, hx⟩ | hx
          · cases hx
            intro h0
            rw [h0] at hmem
            exact hb (q.mpr hmem)
          · cases hx
      exact ⟨⟨fun _ => hnob, fun _ => trivial⟩, fun ⟨fd, id, h⟩ => absurd rfl (hnob fd id 0 h)⟩

/-- Witness for `create_new_socket_cannot_bind`: the socket `8` is created at
the second attempt and the second bind attempt succeeds, so `8` is returned. -/
theorem create_new_socket_cannot_bind_witness :
    (create_new_socket 0
        { socketQ := [.fail EMFILE, .ok 8], bindQ := [.fail EADDRINUSE, .ok 0] }).1 = 8
    ∧ (create_new_socket 0
        { socketQ := [.fail EMFILE, .ok 8], bindQ := [.fail EADDRINUSE, .ok 0] }).1 ≠ 0 :=
  (create_new_socket_cannot_bind 0
    { socketQ := [.fail EMFILE, .ok 8], bindQ := [.fail EADDRINUSE, .ok 0] } 8 (by decide)
    (by decide)).2 ⟨8, 1, by decide⟩

/-! ## The free-text reply -/

theorem sys_recv_of_data (fd : Int) (buffer : List Byte) (w : World) (chunk : List Byte)
    (rs : List RecvRes) (hq : w.recvQ = RecvRes.data chunk :: rs) (hl : chunk.length ≤ 1024) :
    (sys_recv fd 1024 buffer w).1 = (chunk.length : Int)
    ∧ (sys_recv fd 1024 buffer w).2.1 = storeChunk buffer chunk
    ∧ (sys_recv fd 1024 buffer w).2.2.recvQ = rs
    ∧ (sys_recv fd 1024 buffer w).2.2.trace
        = w.trace ++ [Event.recv fd 1024 (chunk.length : Int)] := by
  simp [sys_recv, nextRes, hq, List.take_of_length_le hl]

/-- The receive loop on a reply without NUL byte that arrives as full chunks
followed by a short one. -/
theorem recvLoop_reply (fd : Int) (fulls : List (List Byte)) (short : List Byte)
    (rest : List RecvRes) (hfull : ∀ f ∈ fulls, f.length = 1024 ∧ ∀ b ∈ f, b ≠ 0)
    (hshort : short.length < 1024 ∧ ∀ b ∈ short, b ≠ 0) :
    ∀ (fuel : Nat) (buffer response : List Byte) (w : World),
      1025 ≤ buffer.length → fulls.length < fuel →
      w.recvQ = fulls.map RecvRes.data ++ RecvRes.data short :: rest →
      (recvLoop fd fuel buffer response w).1 = response ++ fulls.flatten ++ short
      ∧ (recvLoop fd fuel buffer response w).2.recvQ = rest
      ∧ (recvLoop fd fuel buffer response w).2.trace
          = w.trace ++ fulls.map (fun _ => Event.recv fd 1024 1024)
              ++ [Event.recv fd 1024 (short.length : Int)] := by
  induction fulls with
  | nil =>
    intro fuel buffer response w hbuf hfuel hq
    obtain ⟨f, rfl⟩ : ∃ f, fuel = f + 1 := ⟨fuel - 1, by simp at hfuel; omega⟩
    obtain ⟨r1, r2, r3, r4⟩ := sys_recv_of_data fd buffer w short rest (by simpa using hq)
      (by omega)
    rw [recvLoop]
    simp only []
    have hstop : ¬ ((sys_recv fd 1024 buffer w).1 = ((1024 : Nat) : Int)
        ∧ (sys_recv fd 1024 buffer w).1 ≠ -1) := by
      rw [r1]; omega
    rw [if_neg hstop]
    refine ⟨?_, r3, by simp [r4]⟩
    by_cases h0 : (sys_recv fd 1024 buffer w).1 ≠ 0
    · rw [if_pos h0]
      simp only []
      rw [r1, r2, cstr_terminate_storeChunk _ _ (by omega) hshort.2]
      simp
    · rw [if_neg h0]
      have hl : short.length = 0 := by
        rw [r1] at h0
        simpa using h0
      simp [List.length_eq_zero.mp hl]
  | cons full fulls ih =>
    intro fuel buffer response w hbuf hfuel hq
    obtain ⟨f, rfl⟩ : ∃ f, fuel = f + 1 := ⟨fuel - 1, by simp at hfuel; omega⟩
    obtain ⟨hlen, hnul⟩ := hfull full (List.mem_cons_self _ _)
    obtain ⟨r1, r2, r3, r4⟩ := sys_recv_of_data fd buffer w full
      (fulls.map RecvRes.data ++ RecvRes.data short :: rest) (by simpa using hq) (by omega)
    rw [recvLoop]
    simp only []
    have hgo : (sys_recv fd 1024 buffer w).1 = ((1024 : Nat) : Int)
        ∧ (sys_recv fd 1024 buffer w).1 ≠ -1 := by
      rw [r1, hlen]; omega
    have h0 : (sys_recv fd 1024 buffer w).1 ≠ 0 := by rw [r1, hlen]; omega
    rw [if_pos hgo, if_pos h0]
    simp only []
    have hb : terminate (sys_recv fd 1024 buffer w).2.1 (sys_recv fd 1024 buffer w).1
        = terminate (storeChunk buffer full) (full.length : Int) := by rw [r1, r2]
    rw [hb, cstr_terminate_storeChunk _ _ (by omega) hnul]
    obtain ⟨a1, a2, a3⟩ := ih (fun g hg => hfull g (List.mem_cons_of_mem _ hg)) f
      (terminate (storeChunk buffer full) (full.length : Int)) (response ++ full)
      (sys_recv fd 1024 buffer w).2.2
      (by rw [length_terminate, length_storeChunk _ _ (by omega)]; exact hbuf)
      (by simp at hfuel; omega) r3
    refine ⟨?_, a2, ?_⟩
    · rw [a1]; simp
    · rw [a3, r4, hlen]; simp

@[simp] theorem sys_send_recvQ (fd : Int) (p : Payload) (w : World) :
    (sys_send fd p w).2.recvQ = w.recvQ := rfl

@[simp] theorem sys_accept_recvQ (sock : Int) (w : World) :
    (sys_accept sock w).2.recvQ = w.recvQ := rfl

@[simp] theorem sys_fcntl_recvQ (fd : Int) (w : World) :
    (sys_fcntl fd w).recvQ = w.recvQ := rfl

theorem recvs_append (a b : List Event) : recvs (a ++ b) = recvs a ++ recvs b := by
  simp [recvs, List.filterMap_append]

theorem recvs_map_recv (fd : Int) (l : List (List Byte)) :
    recvs (l.map (fun _ => Event.recv fd 1024 1024)) = List.replicate l.length 1024 := by
  induction l with
  | nil => rfl
  | cons x xs ih =>
    rw [List.map_cons, List.length_cons, List.replicate_succ]
    rw [← ih]
    rfl

set_option maxRecDepth 100000 in
/-- Claim C17, as stated, fails for a reply with a NUL byte: one successful
`recv` delivers the three bytes `65, 0, 66`, and the string returned is the
single byte `65`. -/
theorem getUserResponse_truncation_counterexample :
    (getUserResponse someCodes (List.replicate 1025 0)
        { outSocket := 8, acceptedOutSocket := 9 } [63]
        { sendQ := [.ok 4, .ok 1], recvQ := [.data [65, 0, 66]] }).1 = [65]
    ∧ ([65] : List Byte) ≠ [65, 0, 66] := by
  decide

/-- Claim C17 (amended): for every reply without NUL byte that arrives, by
successful `recv` calls, as any number of full chunks of 1024 bytes followed by
a chunk of fewer than 1024 bytes, when a connection is available
`getUserResponse` returns the concatenation, in order, of all the bytes
received; it makes one `recv` per chunk and stops after the short one, leaving
later results in the queue. -/
theorem getUserResponse_reply (c : Codes) (stack : List Byte) (inf : CmdPetitionPosixSockets)
    (message : List Byte) (w : World) (fulls : List (List Byte)) (short : List Byte)
    (rest : List RecvRes) (hstack : stack.length = 1025)
    (hconn : connectionOf inf w ≠ -1)
    (hfull : ∀ f ∈ fulls, f.length = 1024 ∧ ∀ b ∈ f, b ≠ 0)
    (hshort : short.length < 1024 ∧ ∀ b ∈ short, b ≠ 0)
    (hq : w.recvQ = fulls.map RecvRes.data ++ RecvRes.data short :: rest) :
    (getUserResponse c stack inf message w).1 = fulls.flatten ++ short
    ∧ recvs (newEvents w (getUserResponse c stack inf message w).2.2)
        = List.replicate fulls.length 1024 ++ [(short.length : Int)]
    ∧ (getUserResponse c stack inf message w).2.2.recvQ = rest := by
  have key : ∀ (cs : Int) (w0 : World) (pre : List Event), w0.recvQ = w.recvQ →
      w0.trace = w.trace ++ pre → recvs pre = [] →
      (recvLoop cs (w0.recvQ.length + 1) stack [] w0).1 = fulls.flatten ++ short
      ∧ recvs (newEvents w (recvLoop cs (w0.recvQ.length + 1) stack [] w0).2)
          = List.replicate fulls.length 1024 ++ [(short.length : Int)]
      ∧ (recvLoop cs (w0.recvQ.length + 1) stack [] w0).2.recvQ = rest := by
    intro cs w0 pre h1 h2 h3
    obtain ⟨a1, a2, a3⟩ := recvLoop_reply cs fulls short rest hfull hshort
      (w0.recvQ.length + 1) stack [] w0 (by omega)
      (by rw [h1, hq]; simp; omega) (by rw [h1, hq])
    refine ⟨by simpa using a1, ?_, a2⟩
    rw [newEvents_of_trace w _ (pre ++ (fulls.map (fun _ => Event.recv cs 1024 1024)
      ++ [Event.recv cs 1024 (short.length : Int)])) (by rw [a3, h2]; simp)]
    rw [recvs_append, recvs_append, h3, recvs_map_recv]
    rfl
  unfold getUserResponse
  by_cases h : inf.acceptedOutSocket = -1
  · simp only [connectionOf, h, if_true] at hconn
    simp only [h, if_true, hconn, if_false]
    exact key _ _ [Event.accept inf.outSocket (sys_accept inf.outSocket w).1,
      Event.fcntl (sys_accept inf.outSocket w).1,
      Event.send (sys_accept inf.outSocket w).1 (Payload.int32 c.MCMD_REQSTRING)
        (sys_send (sys_accept inf.outSocket w).1 (Payload.int32 c.MCMD_REQSTRING)
          (sys_fcntl (sys_accept inf.outSocket w).1 (sys_accept inf.outSocket w).2)).1,
      Event.send (sys_accept inf.outSocket w).1 (Payload.bytes message (sendLength message))
        (sys_send (sys_accept inf.outSocket w).1 (Payload.bytes message (sendLength message))
          (sys_send (sys_accept inf.outSocket w).1 (Payload.int32 c.MCMD_REQSTRING)
            (sys_fcntl (sys_accept inf.outSocket w).1 (sys_accept inf.outSocket w).2)).2).1]
      (by simp) (by simp) rfl
  · simp only [h, if_false]
    exact key _ _ [Event.send inf.acceptedOutSocket (Payload.int32 c.MCMD_REQSTRING)
        (sys_send inf.acceptedOutSocket (Payload.int32 c.MCMD_REQSTRING) w).1,
      Event.send inf.acceptedOutSocket (Payload.bytes message (sendLength message))
        (sys_send inf.acceptedOutSocket (Payload.bytes message (sendLength message))
          (sys_send inf.acceptedOutSocket (Payload.int32 c.MCMD_REQSTRING) w).2).1]
      (by simp) (by simp) rfl

/-- Witness for `getUserResponse_reply`: a reply of 1026 bytes, received as a
full chunk of 1024 bytes followed by two more bytes, on a connection accepted
by the call. -/
theorem getUserResponse_reply_witness :
    (getUserResponse someCodes (List.replicate 1025 0) { outSocket := 8 } [63]
        { acceptQ := [.ok 9], sendQ := [.ok 4, .ok 1],
          recvQ := [.data (List.replicate 1024 65), .data [66, 67]] }).1
      = [List.replicate 1024 65].flatten ++ [66, 67]
    ∧ recvs (newEvents
        { acceptQ := [.ok 9], sendQ := [.ok 4, .ok 1],
          recvQ := [.data (List.replicate 1024 65), .data [66, 67]] }
        (getUserResponse someCodes (List.replicate 1025 0) { outSocket := 8 } [63]
          { acceptQ := [.ok 9], sendQ := [.ok 4, .ok 1],
            recvQ := [.data (List.replicate 1024 65), .data [66, 67]] }).2.2)
      = [1024, 2]
    ∧ (getUserResponse someCodes (List.replicate 1025 0) { outSocket := 8 } [63]
        { acceptQ := [.ok 9], sendQ := [.ok 4, .ok 1],
          recvQ := [.data (List.replicate 1024 65), .data [66, 67]] }).2.2.recvQ = [] :=
  getUserResponse_reply someCodes (List.replicate 1025 0) { outSocket := 8 } [63]
    { acceptQ := [.ok 9], sendQ := [.ok 4, .ok 1],
      recvQ := [.data (List.replicate 1024 65), .data [66, 67]] }
    [List.replicate 1024 65] [66, 67] []
    (List.length_replicate _ _)
    (by decide)
    (by
      intro f hf
      rw [List.mem_singleton.mp hf]
      exact ⟨List.length_replicate _ _, fun b hb => by
        rw [List.eq_of_mem_replicate hb]; decide⟩)
    ⟨by decide, fun b hb => by
      rcases List.mem_cons.mp hb with h | h
      · rw [h]; decide
      · rw [List.mem_singleton.mp h]; decide⟩
    rfl

/-! ## Reconstruction of the request -/

set_option maxRecDepth 100000 in
/-- The end-of-message test on a chunk boundary depends on the uninitialised
variable: a request of exactly 1023 bytes is waiting in full and `FIONREAD`
reports that nothing is left; when the variable held zero `getPetition` makes
one `read` call, and when its upper half held anything else it makes a second
`read` call on the empty socket. -/
theorem getPetition_chunk_boundary_depends_on_stack :
    Event.read 7 1023 0 ∉ newEvents
        { acceptQ := [.ok 7], readQ := [.data (List.replicate 1023 65)], ioctlQ := [.ok 0],
          stackQ := [0], socketQ := [.ok 8], bindQ := [.ok 0], writeQ := [.ok 4] }
        (getPetition
          { acceptQ := [.ok 7], readQ := [.data (List.replicate 1023 65)], ioctlQ := [.ok 0],
            stackQ := [0], socketQ := [.ok 8], bindQ := [.ok 0], writeQ := [.ok 4] }).2
    ∧ Event.read 7 1023 0 ∈ newEvents
        { acceptQ := [.ok 7], readQ := [.data (List.replicate 1023 65)], ioctlQ := [.ok 0],
          stackQ := [2 ^ 32], socketQ := [.ok 8], bindQ := [.ok 0], writeQ := [.ok 4] }
        (getPetition
          { acceptQ := [.ok 7], readQ := [.data (List.replicate 1023 65)], ioctlQ := [.ok 0],
            stackQ := [2 ^ 32], socketQ := [.ok 8], bindQ := [.ok 0], writeQ := [.ok 4] }).2 := by
  decide

end MegaCmd
